import Mathlib

/-!
# Plate Carree plate manager: level planning, georeferencing, mipmap synthesis

A shallow embedding of `src/vw/Plate/PlateCarreePlateManager.cc`, and of the
codec selection of `src/vw/FileIO/MemoryImageResource.cc`.

Conventions of the embedding.
* A C++ `int` is an `Int` kept in the 32-bit two's-complement range by `wrap32`
  wherever the source does arithmetic on it.
* A C++ `double` that holds a coordinate, a transform entry or a pixel channel
  is an exact rational (`ℚ`): rounding of the floating-point unit is not part
  of the model there.  The one place where rounding changes an `int` the
  program goes on to use is line 56, `ceil(log(r) / log(2))`: `ceil_log2` is
  the value the double-precision evaluation gives, which is the real-number
  value `⌈log r / log 2⌉` for every `int` `r ≥ 1` other than `2^29`, and one
  more than it at `2^29` (`ceil_log2_eq_ceil_log_div_log`,
  `ceil_log2_two_pow_29`).
* A pixel channel is a rational whatever the channel type of the
  instantiation (`uint8`, `int16`, `float32`): every value of these types is
  one.  The conversion of a filtered value back to an integer channel type is
  not carried by the model, so the theorems on the blurred path speak only of
  pixels whose filtered value is itself a channel value.
* Code that lives outside these sources (the cartography library, the image
  filters, the tile store) enters either as a parameter (`Cartography`,
  `PlateFile`) or as a definition marked `Modelled from the spec:`.
-/

namespace VW

/-! ## Machine integers -/

/-- Value of a 32-bit two's-complement `int` holding the mathematical integer `n`. -/
def wrap32 (n : Int) : Int := (n + 2 ^ 31) % 2 ^ 32 - 2 ^ 31

/-- The C++ expression `a << n` on `int`.  A shift count outside `[0, 32)` has no
defined result (`none`); inside, the product is reduced to 32 bits. -/
def shl32 (a n : Int) : Option Int :=
  if 0 ≤ n ∧ n < 32 then some (wrap32 (a * 2 ^ n.toNat)) else none

/-! ## Vectors, matrices, georeferences -/

/-- The type `Vector2`: a pair of doubles. -/
structure Vector2 where
  x : ℚ
  y : ℚ
deriving DecidableEq

/-- The type `Matrix3x3`, row major: `mij` is `transform(i,j)`. -/
structure Matrix3x3 where
  m00 : ℚ
  m01 : ℚ
  m02 : ℚ
  m10 : ℚ
  m11 : ℚ
  m12 : ℚ
  m20 : ℚ
  m21 : ℚ
  m22 : ℚ
deriving DecidableEq

/-- The default-constructed `Matrix3x3`: all entries zero. -/
def Matrix3x3.zero : Matrix3x3 := ⟨0, 0, 0, 0, 0, 0, 0, 0, 0⟩

/-- Read access `m(i,j)`. -/
def Matrix3x3.get (m : Matrix3x3) (i j : Nat) : ℚ :=
  match i, j with
  | 0, 0 => m.m00 | 0, 1 => m.m01 | 0, 2 => m.m02
  | 1, 0 => m.m10 | 1, 1 => m.m11 | 1, 2 => m.m12
  | 2, 0 => m.m20 | 2, 1 => m.m21 | 2, 2 => m.m22
  | _, _ => 0

/-- Write access `m(i,j) = v`. -/
def Matrix3x3.set (m : Matrix3x3) (i j : Nat) (v : ℚ) : Matrix3x3 :=
  match i, j with
  | 0, 0 => { m with m00 := v } | 0, 1 => { m with m01 := v } | 0, 2 => { m with m02 := v }
  | 1, 0 => { m with m10 := v } | 1, 1 => { m with m11 := v } | 1, 2 => { m with m12 := v }
  | 2, 0 => { m with m20 := v } | 2, 1 => { m with m21 := v } | 2, 2 => { m with m22 := v }
  | _, _ => m

/-- The two pixel interpretations of a `GeoReference`. -/
inductive PixelInterpretation where
  | PixelAsArea
  | PixelAsPoint
deriving DecidableEq

/-- The datum of a reference; only copied around by this code. -/
structure Datum where
  name : String
deriving DecidableEq

/-- The class `cartography::GeoReference`, reduced to the state this code reads
and writes: datum, proj.4 string, pixel interpretation and affine transform. -/
structure GeoReference where
  datum : Datum
  proj4_str : String
  pixel_interpretation : PixelInterpretation
  transform : Matrix3x3
deriving DecidableEq

/-- The setter `GeoReference::set_transform`. -/
def GeoReference.set_transform (g : GeoReference) (t : Matrix3x3) : GeoReference :=
  { g with transform := t }

/-- The setter `GeoReference::set_pixel_interpretation`. -/
def GeoReference.set_pixel_interpretation (g : GeoReference) (p : PixelInterpretation) :
    GeoReference :=
  { g with pixel_interpretation := p }

/-- The setter `GeoReference::set_datum`. -/
def GeoReference.set_datum (g : GeoReference) (d : Datum) : GeoReference :=
  { g with datum := d }

/-- The parts of the cartography library that the plate manager calls and whose
code is outside these sources; they are parameters of the embedding. -/
structure Cartography where
  /-- The default-constructed `GeoReference()`. -/
  default_georef : GeoReference
  /-- The method `GeoReference::pixel_to_lonlat`. -/
  pixel_to_lonlat : GeoReference → Vector2 → Vector2
  /-- The function `output::kml::compute_resolution` on the transform built from
  an input and an output reference, at a pixel; it returns an `int`. -/
  compute_resolution : GeoReference → GeoReference → Vector2 → Int

/-- Modelled from the spec: the pixel-to-world map of a reference ("an affine
transform ... mapping pixel coordinates to projected/world coordinates").  The
library method `GeoReference::pixel_to_point` is outside these sources. -/
def pixel_to_point (g : GeoReference) (p : Vector2) : Vector2 :=
  ⟨g.transform.m00 * p.x + g.transform.m01 * p.y + g.transform.m02,
   g.transform.m10 * p.x + g.transform.m11 * p.y + g.transform.m12⟩

/-- Modelled from the spec: a cartography library in which the longitude and
latitude of a pixel are its affine image (the equirectangular reading of a
longitude/latitude reference), every resolution estimate is the floor value
256, and the default reference is an identity longitude/latitude one. -/
def affineCartography : Cartography where
  default_georef := ⟨⟨"WGS84"⟩, "+proj=longlat", .PixelAsPoint, ⟨1, 0, 0, 0, 1, 0, 0, 0, 1⟩⟩
  pixel_to_lonlat := pixel_to_point
  compute_resolution := fun _ _ _ => 256

/-! ## Pixels and images -/

/-- A gray/alpha pixel (the `PixelGrayA` instantiations of `PixelT`, lines
159-161: `uint8`, `int16` and `float32` channels).  A channel is carried as a
rational, which every value of the three channel types is.  The filter of line
129 computes in fractions and the program stores its result back into the
channel type; that conversion is not part of this type, so what the model
gives for a filtered pixel is the program's pixel only where the filtered
value is itself a channel value (a block of four equal pixels, a zero block). -/
structure PixelGrayA where
  v : ℚ
  a : ℚ
deriving DecidableEq

instance : Zero PixelGrayA := ⟨⟨0, 0⟩⟩

instance : Add PixelGrayA := ⟨fun p q => ⟨p.v + q.v, p.a + q.a⟩⟩

instance : SMul ℚ PixelGrayA := ⟨fun k p => ⟨k * p.v, k * p.a⟩⟩

/-- The class `ImageView<PixelT>`: a size and the pixel at `(x, y)`; `pix` is
read inside `cols × rows` only. -/
structure ImageView where
  cols : Nat
  rows : Nat
  pix : Nat → Nat → PixelGrayA

/-- The constructor `ImageView<PixelT>(cols, rows)`: every pixel is the zero
(transparent) pixel.  A negative size gives an empty image. -/
def ImageView.make (cols rows : Int) : ImageView :=
  ⟨cols.toNat, rows.toNat, fun _ _ => 0⟩

/-- The assignment `crop(super, x0, y0, w, h) = child`: the window of `super`
with corner `(x0, y0)` and size `w × h` takes the pixels of `child`.  Tiles
handed back by the store have `w × h` pixels (data-model invariant), and the
child is read on that window. -/
def crop_assign (super : ImageView) (x0 y0 w h : Int) (child : ImageView) : ImageView :=
  { super with
    pix := fun x y =>
      if x0 ≤ (x : Int) ∧ (x : Int) < x0 + w ∧ y0 ≤ (y : Int) ∧ (y : Int) < y0 + h then
        child.pix ((x : Int) - x0).toNat ((y : Int) - y0).toNat
      else super.pix x y }

/-- Modelled from the spec: `subsample(image, 2)` of the image library,
"pick every 2nd pixel": pixel `(x, y)` of the result is pixel `(2x, 2y)` of
the argument, so a `2T × 2T` buffer gives `T × T`. -/
def subsample (img : ImageView) (factor : Nat) : ImageView :=
  ⟨(img.cols + factor - 1) / factor, (img.rows + factor - 1) / factor,
   fun x y => img.pix (factor * x) (factor * y)⟩

/-- Modelled from the spec: `ConstantEdgeExtension`, "replicate/constant edge
handling at the buffer's border": a coordinate outside the image is moved to
the nearest coordinate inside. -/
def ConstantEdgeExtension (img : ImageView) (x y : Int) : PixelGrayA :=
  img.pix (min x.toNat (img.cols - 1)) (min y.toNat (img.rows - 1))

/-- Modelled from the spec: `separable_convolution_filter(image, x_kernel,
y_kernel, cx, cy, ConstantEdgeExtension())` of the image library, "a separable
low-pass filter ... along both axes": tap `i` of the horizontal kernel and tap
`j` of the vertical one weigh the pixel at `(x + cx - i, y + cy - j)`. -/
def separable_convolution_filter (img : ImageView) (x_kernel y_kernel : List ℚ)
    (cx cy : Int) : ImageView :=
  ⟨img.cols, img.rows, fun x y =>
    (x_kernel.enum.map fun ik =>
      (y_kernel.enum.map fun jk =>
        (ik.2 * jk.2) • ConstantEdgeExtension img ((x : Int) + cx - ik.1) ((y : Int) + cy - jk.1)).sum).sum⟩

/-- Modelled from the spec: `is_transparent(image)` of the image library,
"fully transparent (every pixel's alpha/coverage is zero)". -/
def is_transparent (img : ImageView) : Bool :=
  (List.range img.cols).all fun x => (List.range img.rows).all fun y => decide ((img.pix x y).a = 0)

/-! ## The tile store as the manager sees it -/

/-- A transaction (version) identifier. -/
abbrev Transaction := Int

/-- Exceptions a store read can throw: the one the manager catches, and the rest. -/
inductive Exception where
  | TileNotFoundErr
  | other (what : String)
deriving DecidableEq

/-- The plate file behind `m_platefile`, as far as the manager uses it:
`default_tile_size()`, `read(child, col, row, level, transaction_id,
exact_transaction)`, which yields the tile or throws, and
`write_update(tile, col, row, level, transaction_id)`, which returns or throws. -/
structure PlateFile where
  default_tile_size : Int
  read : Int → Int → Int → Transaction → Bool → Except Exception ImageView
  write_update : ImageView → Int → Int → Int → Transaction → Except Exception Unit

/-- One call `write_update(tile, col, row, level, transaction_id)`. -/
structure TileWrite where
  tile : ImageView
  col : Int
  row : Int
  level : Int
  transaction_id : Transaction

/-- The class `PlateCarreePlateManager<PixelT>`: it holds the plate file. -/
structure PlateCarreePlateManager where
  m_platefile : PlateFile

/-! ## `georeference` -/

/-- The local `resolution` of `georeference`: `(1<<level)*tile_size` on `int`. -/
def georeference_resolution (pm : PlateCarreePlateManager) (level : Int) : Option Int :=
  let tile_size := pm.m_platefile.default_tile_size
  (shl32 1 level).map fun s => wrap32 (s * tile_size)

/-- The method `PlateCarreePlateManager::georeference`.  The result is `none`
when the shift count is outside `[0, 32)` or when `resolution` is zero (the
quotients are then not finite numbers). -/
def georeference (lib : Cartography) (pm : PlateCarreePlateManager) (level : Int) :
    Option GeoReference :=
  match georeference_resolution pm level with
  | none => none
  | some resolution =>
    if resolution = 0 then none
    else
      let r := lib.default_georef
      let r := r.set_pixel_interpretation PixelInterpretation.PixelAsArea
      let transform := Matrix3x3.zero
      let transform := transform.set 0 0 (360 / (resolution : ℚ))
      let transform := transform.set 0 2 (-180)
      let transform := transform.set 1 1 (-360 / (resolution : ℚ))
      let transform := transform.set 1 2 180
      let transform := transform.set 2 2 1
      some (r.set_transform transform)

/-! ## `transform_image` -/

/-- The test `boost::contains(s, pat)`: `pat` occurs in `s`. -/
def contains (s pat : String) : Bool := decide (pat.data <:+: s.data)

/-- Lines 25-26 of `transform_image`: "Correct if it is so far right it is not
visible". -/
def shift_far_right (transform : Matrix3x3) : Matrix3x3 :=
  if transform.get 0 2 > 180 then transform.set 0 2 (transform.get 0 2 - 360) else transform

/-- Lines 27-28 of `transform_image`: the test on the longitude `lon` of the
top-right pixel, and the shift of `transform` it guards. -/
def shift_far_left (lon : ℚ) (transform : Matrix3x3) : Matrix3x3 :=
  if lon < -180 then transform.set 0 2 (transform.get 0 2 + 360) else transform

/-- Lines 20-30 of `transform_image`: the corrected copy `input_georef` of the
input reference, for an image `cols` pixels wide.  The longitude of line 27 is
asked of `input_georef`, whose transform is replaced on line 29 only. -/
def correct_input_georef (lib : Cartography) (georef : GeoReference) (cols : Int) :
    GeoReference :=
  let input_georef := georef
  if contains input_georef.proj4_str "+proj=longlat" then
    let transform := input_georef.transform
    let transform := shift_far_right transform
    let transform :=
      shift_far_left (lib.pixel_to_lonlat input_georef ⟨((cols - 1 : Int) : ℚ), 0⟩).x transform
    input_georef.set_transform transform
  else input_georef

/-- Lines 38-47 of `transform_image`: the five sample points; `/` on `int`
rounds toward zero. -/
def res_pixel (cols rows : Int) : List Vector2 :=
  [ ⟨((cols.tdiv 2 : Int) : ℚ), ((rows.tdiv 2 : Int) : ℚ)⟩,
    ⟨((cols.tdiv 2 + cols.tdiv 4 : Int) : ℚ), ((rows.tdiv 2 : Int) : ℚ)⟩,
    ⟨((cols.tdiv 2 - cols.tdiv 4 : Int) : ℚ), ((rows.tdiv 2 : Int) : ℚ)⟩,
    ⟨((cols.tdiv 2 : Int) : ℚ), ((rows.tdiv 2 + rows.tdiv 4 : Int) : ℚ)⟩,
    ⟨((cols.tdiv 2 : Int) : ℚ), ((rows.tdiv 2 - rows.tdiv 4 : Int) : ℚ)⟩ ]

/-- Lines 35 and 48-52 of `transform_image`: `resolution` starts at 256 and
takes every sample `res` that exceeds it. -/
def resolution_loop (samples : List Int) : Int :=
  samples.foldl (fun resolution res => if res > resolution then res else resolution) 256

/-- The double `log(2.0)`, the double nearest to the natural logarithm of 2:
`0x1.62e42fefa39efp-1`. -/
def log_2_double : ℚ := 6243314768165359 / 9007199254740992

/-- The double `log(536870912.0)`, the double nearest to the natural logarithm
of `2^29`: `0x1.419ecb712c481p+4`. -/
def log_2_pow_29_double : ℚ := 5658004008649857 / 281474976710656

/-- The value of `ceil(log(r) / log(2))` of line 56 for an `int` `r ≥ 1`, as
double-precision arithmetic evaluates it.  Off the powers of two the real
number `log r / log 2` is farther than `6e-10` from every integer for `r`
below `2^31`, the quotient of doubles is within `1e-13` of it, and the result
is the least `k` with `r ≤ 2^k`.  At the powers of two `2^0 .. 2^30` the
quotient of the two doubles is the exact integer, except at `2^29`: there
`log_2_pow_29_double / log_2_double` lies above `29` by more than half the
spacing `2^-48` of the doubles around it (`double_quotient_two_pow_29`), the
division rounds to `29.000000000000004`, and `ceil` gives 30. -/
def ceil_log2 (r : Int) : Int :=
  if r = 2 ^ 29 then 30 else (Nat.clog 2 r.toNat : Int)

/-- Line 56 of `transform_image`:
`static_cast<int>(ceil(log(resolution) / log(2))) - 8`. -/
def level_of_resolution (resolution : Int) : Int := ceil_log2 resolution - 8

/-- The level `transform_image` chooses from the samples of the estimator. -/
def choose_level (samples : List Int) : Int := level_of_resolution (resolution_loop samples)

/-- What `transform_image` works out before it resamples the image. -/
structure Placement where
  input_georef : GeoReference
  resolution : Int
  level : Int
  output_georef : Option GeoReference

/-- The method `PlateCarreePlateManager::transform_image` up to line 57, for an
image of `cols × rows` pixels: corrected input reference, working resolution,
level, and the output reference of that level. -/
def transform_image (lib : Cartography) (pm : PlateCarreePlateManager)
    (georef : GeoReference) (cols rows : Int) : Placement :=
  let input_georef := correct_input_georef lib georef cols
  let output_georef := lib.default_georef.set_datum input_georef.datum
  let samples := (res_pixel cols rows).map (lib.compute_resolution input_georef output_georef)
  let resolution := resolution_loop samples
  let level := level_of_resolution resolution
  ⟨input_georef, resolution, level, georeference lib pm level⟩

/-! ## `generate_mipmap_tile` -/

/-- The body of the two loops of `generate_mipmap_tile` for child `(i, j)`: read
the child at the exact transaction and copy it into its quadrant of `super`; a
`TileNotFoundErr` leaves `super` as it is, any other exception leaves the
function. -/
def read_child (pm : PlateCarreePlateManager) (tile_size col row level : Int)
    (transaction_id : Transaction) (super : ImageView) (i j : Int) :
    Except Exception ImageView :=
  let child_col := wrap32 (2 * col + i)
  let child_row := wrap32 (2 * row + j)
  match pm.m_platefile.read child_col child_row (wrap32 (level + 1)) transaction_id true with
  | .ok child =>
    .ok (crop_assign super (wrap32 (tile_size * i)) (wrap32 (tile_size * j)) tile_size tile_size child)
  | .error .TileNotFoundErr => .ok super
  | .error e => .error e

/-- Lines 100-121 of `generate_mipmap_tile`: the buffer `super` after the loops
over `j` (outer) and `i` (inner). -/
def gather_children (pm : PlateCarreePlateManager) (col row level : Int)
    (transaction_id : Transaction) : Except Exception ImageView :=
  let tile_size := pm.m_platefile.default_tile_size
  let super := ImageView.make (wrap32 (2 * tile_size)) (wrap32 (2 * tile_size))
  [0, 1].foldlM (fun super j =>
    [0, 1].foldlM (fun super i =>
      read_child pm tile_size col row level transaction_id super i j) super) super

/-- The box kernel of line 124-125. -/
def kernel : List ℚ := [1 / 2, 1 / 2]

/-- Lines 127-133 of `generate_mipmap_tile`: `new_tile` from `super`. -/
def downsample (super : ImageView) (preblur : Bool) : ImageView :=
  if preblur then subsample (separable_convolution_filter super kernel kernel 1 1) 2
  else subsample super 2

/-- The method `PlateCarreePlateManager::generate_mipmap_tile` up to its
`write_update` call of line 138: the exception of a child read that leaves the
method before any call, or the list of `write_update` calls it issues.  How the
method ends once the call is made, the call being outside every `try` block, is
`generate_mipmap_tile_run`. -/
def generate_mipmap_tile (pm : PlateCarreePlateManager) (col row level : Int)
    (transaction_id : Transaction) (preblur : Bool) : Except Exception (List TileWrite) :=
  match gather_children pm col row level transaction_id with
  | .error e => .error e
  | .ok super =>
    let new_tile := downsample super preblur
    if !is_transparent new_tile then .ok [⟨new_tile, col, row, level, transaction_id⟩]
    else .ok []

/-- The method `PlateCarreePlateManager::generate_mipmap_tile` as a call: it
ends normally, or with the exception that leaves it, which is that of a child
read other than `TileNotFoundErr` (lines 109-121) or that of `write_update`
(line 138, outside every `try` block). -/
def generate_mipmap_tile_run (pm : PlateCarreePlateManager) (col row level : Int)
    (transaction_id : Transaction) (preblur : Bool) : Except Exception Unit :=
  match gather_children pm col row level transaction_id with
  | .error e => .error e
  | .ok super =>
    let new_tile := downsample super preblur
    if !is_transparent new_tile then
      pm.m_platefile.write_update new_tile col row level transaction_id
    else .ok ()

/-- The read `generate_mipmap_tile` issues for child `(i, j)` (lines 109-117). -/
def child_read (pm : PlateCarreePlateManager) (col row level : Int)
    (transaction_id : Transaction) (i j : Int) : Except Exception ImageView :=
  pm.m_platefile.read (wrap32 (2 * col + i)) (wrap32 (2 * row + j)) (wrap32 (level + 1))
    transaction_id true

/-- Each of the four child reads succeeds or throws `TileNotFoundErr`. -/
def children_present_or_absent (pm : PlateCarreePlateManager) (col row level : Int)
    (transaction_id : Transaction) : Bool :=
  [0, 1].all fun j => [0, 1].all fun i =>
    match child_read pm col row level transaction_id i j with
    | .ok _ => true
    | .error .TileNotFoundErr => true
    | .error _ => false

/-- The tile is zero on its `tile_size × tile_size` pixels. -/
def tile_is_zero (tile_size : Int) (tile : ImageView) : Bool :=
  (List.range tile_size.toNat).all fun x =>
    (List.range tile_size.toNat).all fun y => decide (tile.pix x y = 0)

/-- Each of the four child reads throws `TileNotFoundErr` or yields an all-zero
tile. -/
def children_absent_or_zero (pm : PlateCarreePlateManager) (col row level : Int)
    (transaction_id : Transaction) : Bool :=
  [0, 1].all fun j => [0, 1].all fun i =>
    match child_read pm col row level transaction_id i j with
    | .ok child => tile_is_zero pm.m_platefile.default_tile_size child
    | .error .TileNotFoundErr => true
    | .error _ => false

/-- The order in which the loops of lines 106-107 visit the children `(i, j)`:
`j` outside, `i` inside. -/
def child_order : List (Int × Int) := [0, 1].flatMap fun j => [0, 1].map fun i => (i, j)

/-! ## `MemoryImageResource.cc` -/

/-- The predicate `boost::is_any_of(set)`: the character occurs in `set`. -/
def is_any_of (set : String) (c : Char) : Bool := decide (c ∈ set.data)

/-- The function `boost::trim_left_copy_if(s, p)`: `s` without its longest
leading run of characters that satisfy `p`. -/
def trim_left_copy_if (s : String) (p : Char → Bool) : String := ⟨s.data.dropWhile p⟩

/-- The function `boost::to_lower_copy(s)` in the classic locale: every letter
`A`..`Z` becomes `a`..`z`, every other character stays. -/
def to_lower_copy (s : String) : String := ⟨s.data.map Char.toLower⟩

/-- The function `clean_type` of the anonymous namespace. -/
def clean_type (type : String) : String :=
  to_lower_copy (trim_left_copy_if type (is_any_of "."))

/-- The packages `vw/config.h` declares present; each `#if` block of `open` and
`create` is compiled in when its flag is set. -/
structure BuildConfig where
  VW_HAVE_PKG_JPEG : Bool
  VW_HAVE_PKG_PNG : Bool
  VW_HAVE_PKG_GDAL : Bool
  VW_HAVE_PKG_OPENEXR : Bool

/-- The four codec families behind the memory resources. -/
inductive Codec where
  | JPEG
  | PNG
  | GDAL
  | OpenEXR
deriving DecidableEq

/-- A `SrcMemoryImageResource` as `open` builds it: the subclass chosen and the
constructor arguments `(data, len)`. -/
structure SrcMemoryImageResource where
  codec : Codec
  data : List Nat
  len : Nat
deriving DecidableEq

/-- The type `ImageFormat`, handed through to the encoder. -/
structure ImageFormat where
  cols : Nat
  rows : Nat
  planes : Nat
deriving DecidableEq

/-- A `DstMemoryImageResource` as `create` builds it: the subclass chosen and
the constructor argument `format`. -/
structure DstMemoryImageResource where
  codec : Codec
  format : ImageFormat
deriving DecidableEq

/-- The exception `NoImplErr` with its message. -/
structure NoImplErr where
  what : String
deriving DecidableEq

/-- The function `SrcMemoryImageResource::open` (lines 56-79; `open` is a
reserved word here, hence the name).  The overload of lines 51-54 wraps its
pointer and forwards to this one. -/
def SrcMemoryImageResource.open_resource (cfg : BuildConfig) (type : String)
    (data : List Nat) (len : Nat) : Except NoImplErr SrcMemoryImageResource :=
  let ct := clean_type type
  let result : Option SrcMemoryImageResource := none
  let result :=
    if cfg.VW_HAVE_PKG_JPEG ∧ (ct = "jpg" ∨ ct = "jpeg" ∨ ct = "image/jpeg") then
      some ⟨Codec.JPEG, data, len⟩ else result
  let result :=
    if cfg.VW_HAVE_PKG_PNG ∧ (ct = "png" ∨ ct = "image/png") then
      some ⟨Codec.PNG, data, len⟩ else result
  let result :=
    if cfg.VW_HAVE_PKG_GDAL ∧ (ct = "tif" ∨ ct = "tiff" ∨ ct = "image/tiff") then
      some ⟨Codec.GDAL, data, len⟩ else result
  let result :=
    if cfg.VW_HAVE_PKG_OPENEXR ∧ (ct = "exr" ∨ ct = "image/exr") then
      some ⟨Codec.OpenEXR, data, len⟩ else result
  match result with
  | none => .error ⟨"Unsupported file format: " ++ type⟩
  | some r => .ok r

/-- The function `DstMemoryImageResource::create` (lines 81-105). -/
def DstMemoryImageResource.create (cfg : BuildConfig) (type : String)
    (format : ImageFormat) : Except NoImplErr DstMemoryImageResource :=
  let ct := clean_type type
  let result : Option DstMemoryImageResource := none
  let result :=
    if cfg.VW_HAVE_PKG_JPEG ∧ (ct = "jpg" ∨ ct = "jpeg" ∨ ct = "image/jpeg") then
      some ⟨Codec.JPEG, format⟩ else result
  let result :=
    if cfg.VW_HAVE_PKG_PNG ∧ (ct = "png" ∨ ct = "image/png") then
      some ⟨Codec.PNG, format⟩ else result
  let result :=
    if cfg.VW_HAVE_PKG_GDAL ∧ (ct = "tif" ∨ ct = "tiff" ∨ ct = "image/tiff") then
      some ⟨Codec.GDAL, format⟩ else result
  let result :=
    if cfg.VW_HAVE_PKG_OPENEXR ∧ (ct = "exr" ∨ ct = "image/exr") then
      some ⟨Codec.OpenEXR, format⟩ else result
  match result with
  | none => .error ⟨"Unsupported file format: " ++ type⟩
  | some r => .ok r

/-- The character `c'` is `c` with the case of an ASCII letter possibly changed. -/
def case_variant (c c' : Char) : Prop := c' = c.toLower ∨ c' = c.toUpper

/-- The string `s'` comes from `s` by changing the case of ASCII letters and by
adding or removing leading dots: both are a run of dots followed by cores
that agree character by character up to case. -/
def same_up_to_case_and_dots (s s' : String) : Prop :=
  ∃ (n n' : Nat) (core core' : List Char),
    s.data = List.replicate n '.' ++ core ∧ s'.data = List.replicate n' '.' ++ core' ∧
    List.Forall₂ case_variant core core'

/-- The pixel that the children put at `(X, Y)` of the `2T × 2T` buffer, in the
words of the claims: pixel `(X mod T, Y mod T)` of the child in quadrant
`(X div T, Y div T)` when the read of that child succeeds, the zero pixel when
it does not. -/
def quadrant_pixel (pm : PlateCarreePlateManager) (col row level : Int)
    (transaction_id : Transaction) (X Y : Nat) : PixelGrayA :=
  match child_read pm col row level transaction_id
      ((X : Int) / pm.m_platefile.default_tile_size)
      ((Y : Int) / pm.m_platefile.default_tile_size) with
  | .ok child =>
    child.pix ((X : Int) % pm.m_platefile.default_tile_size).toNat
      ((Y : Int) % pm.m_platefile.default_tile_size).toNat
  | .error _ => 0

/-! ## Concrete inputs used by the examples -/

/-- A manager over an empty store (every read throws `TileNotFoundErr`, every
write is accepted) whose default tile size is 256. -/
def plate256 : PlateCarreePlateManager :=
  ⟨⟨256, fun _ _ _ _ _ => .error .TileNotFoundErr, fun _ _ _ _ _ => .ok ()⟩⟩

/-- The five estimates of the spec's scenario 6. -/
def samples_scenario : Fin 5 → Int := ![256, 300, 180, 400, 256]

/-- The same estimates with the fourth one raised to 1000. -/
def samples_raised : Fin 5 → Int := ![256, 300, 180, 1000, 256]

/-- A longitude/latitude reference whose horizontal origin offset is 200. -/
def georef_east200 : GeoReference :=
  ⟨⟨"WGS84"⟩, "+proj=longlat +datum=WGS84", .PixelAsArea,
    ⟨1 / 10, 0, 200, 0, -(1 / 10), 90, 0, 0, 1⟩⟩

/-- A longitude/latitude reference whose horizontal origin offset is 600. -/
def georef_east600 : GeoReference :=
  ⟨⟨"WGS84"⟩, "+proj=longlat +datum=WGS84", .PixelAsArea,
    ⟨1 / 10, 0, 600, 0, -(1 / 10), 90, 0, 0, 1⟩⟩

/-- A mirrored longitude/latitude reference (negative horizontal scale) whose
horizontal origin offset is 200. -/
def georef_mirrored : GeoReference :=
  ⟨⟨"WGS84"⟩, "+proj=longlat +datum=WGS84", .PixelAsArea, ⟨-1, 0, 200, 0, -1, 90, 0, 0, 1⟩⟩

/-- A 2 × 2 tile, every pixel gray 100 and opaque. -/
def opaque_tile : ImageView := ⟨2, 2, fun _ _ => ⟨100, 255⟩⟩

/-- A manager over a store of tile size 2 that holds the one tile `opaque_tile`
at `(0, 0, 1)` under transaction 7. -/
def plate_one_child : PlateCarreePlateManager :=
  ⟨⟨2, fun col row level tid _ =>
    if col = 0 ∧ row = 0 ∧ level = 1 ∧ tid = 7 then .ok opaque_tile
    else .error .TileNotFoundErr, fun _ _ _ _ _ => .ok ()⟩⟩

/-- A manager over a store of tile size 2 that holds one all-zero tile at
`(0, 0, 1)` under transaction 7. -/
def plate_zero_child : PlateCarreePlateManager :=
  ⟨⟨2, fun col row level tid _ =>
    if col = 0 ∧ row = 0 ∧ level = 1 ∧ tid = 7 then .ok (ImageView.make 2 2)
    else .error .TileNotFoundErr, fun _ _ _ _ _ => .ok ()⟩⟩

/-- The affine cartography with an estimator that answers 400 at every pixel. -/
def cartography400 : Cartography :=
  ⟨affineCartography.default_georef, pixel_to_point, fun _ _ _ => 400⟩

/-- A manager over an empty store whose default tile size is 128. -/
def plate128 : PlateCarreePlateManager :=
  ⟨⟨128, fun _ _ _ _ _ => .error .TileNotFoundErr, fun _ _ _ _ _ => .ok ()⟩⟩

/-- A manager over a store of tile size 2 whose read of child `(1, 0)` of tile
`(0, 0, 0)` fails with an I/O error, and of child `(0, 1)` with a checksum
error; the other tiles are absent. -/
def plate_io_error : PlateCarreePlateManager :=
  ⟨⟨2, fun col row level _ _ =>
    if col = 1 ∧ row = 0 ∧ level = 1 then .error (.other "IOErr")
    else if col = 0 ∧ row = 1 ∧ level = 1 then .error (.other "checksum")
    else .error .TileNotFoundErr, fun _ _ _ _ _ => .ok ()⟩⟩

/-- The store of `plate_one_child` with one more tile, at `(5, 5, 3)`. -/
def plate_one_child_more : PlateCarreePlateManager :=
  ⟨⟨2, fun col row level tid _ =>
    if col = 0 ∧ row = 0 ∧ level = 1 ∧ tid = 7 then .ok opaque_tile
    else if col = 5 ∧ row = 5 ∧ level = 3 then .ok opaque_tile
    else .error .TileNotFoundErr, fun _ _ _ _ _ => .ok ()⟩⟩

/-- A manager over an empty store whose default tile size is 2^30. -/
def plate_huge : PlateCarreePlateManager :=
  ⟨⟨1073741824, fun _ _ _ _ _ => .error .TileNotFoundErr, fun _ _ _ _ _ => .ok ()⟩⟩

/-- A manager over a store of tile size 2 that holds `opaque_tile` at the four
children of `(0, 0, 0)`. -/
def plate_four_uniform : PlateCarreePlateManager :=
  ⟨⟨2, fun col row level _ _ =>
    if level = 1 ∧ 0 ≤ col ∧ col ≤ 1 ∧ 0 ≤ row ∧ row ≤ 1 then .ok opaque_tile
    else .error .TileNotFoundErr, fun _ _ _ _ _ => .ok ()⟩⟩

/-- A 2 × 2 tile whose only non-transparent pixel is `(1, 1)`. -/
def corner_tile : ImageView := ⟨2, 2, fun x y => if x = 1 ∧ y = 1 then ⟨100, 255⟩ else 0⟩

/-- A manager over a store of tile size 2 that holds `corner_tile` at the four
children of `(0, 0, 0)`. -/
def plate_four_corner : PlateCarreePlateManager :=
  ⟨⟨2, fun col row level _ _ =>
    if level = 1 ∧ 0 ≤ col ∧ col ≤ 1 ∧ 0 ≤ row ∧ row ≤ 1 then .ok corner_tile
    else .error .TileNotFoundErr, fun _ _ _ _ _ => .ok ()⟩⟩

/-- A manager over the store of `plate_one_child` whose `write_update` throws an
I/O error. -/
def plate_write_fails : PlateCarreePlateManager :=
  ⟨⟨2, fun col row level tid _ =>
    if col = 0 ∧ row = 0 ∧ level = 1 ∧ tid = 7 then .ok opaque_tile
    else .error .TileNotFoundErr, fun _ _ _ _ _ => .error (.other "IOErr")⟩⟩

/-- A 2 × 2 tile with alpha 1 at `(0, 0)`, alpha -1 at `(1, 0)` and alpha 0 in
its second row: not transparent, and of mean alpha 0. -/
def cancelling_tile : ImageView :=
  ⟨2, 2, fun x y => if y = 0 then (if x = 0 then ⟨100, 1⟩ else ⟨100, -1⟩) else 0⟩

/-- A manager over a store of tile size 2 that holds `cancelling_tile` at the
four children of `(0, 0, 0)`. -/
def plate_four_cancelling : PlateCarreePlateManager :=
  ⟨⟨2, fun col row level _ _ =>
    if level = 1 ∧ 0 ≤ col ∧ col ≤ 1 ∧ 0 ≤ row ∧ row ≤ 1 then .ok cancelling_tile
    else .error .TileNotFoundErr, fun _ _ _ _ _ => .ok ()⟩⟩

/-! ## Machine-integer lemmas -/

theorem wrap32_of_range (n : Int) (h1 : -2 ^ 31 ≤ n) (h2 : n < 2 ^ 31) : wrap32 n = n := by
  unfold wrap32
  rw [Int.emod_eq_of_lt (by omega) (by omega)]
  omega

theorem shift_count_of_fit (T : Int) (n : Nat) (hT : 0 < T) (hfit : T * 2 ^ n < 2 ^ 31) :
    (2 : Int) ^ n < 2 ^ 31 ∧ n < 31 := by
  have hp : (0 : Int) < 2 ^ n := by positivity
  have h1 : (2 : Int) ^ n < 2 ^ 31 := by nlinarith
  refine ⟨h1, ?_⟩
  exact (pow_lt_pow_iff_right₀ (by norm_num : (1 : Int) < 2)).mp h1

/-! ## `georeference` -/

/-- While `tile_size * 2^level` fits an `int`, the local `resolution` of
`georeference` is that number. -/
theorem georeference_resolution_in_range (pm : PlateCarreePlateManager) (level : Int)
    (hL : 0 ≤ level) (hT : 0 < pm.m_platefile.default_tile_size)
    (hfit : pm.m_platefile.default_tile_size * 2 ^ level.toNat < 2 ^ 31) :
    georeference_resolution pm level
      = some (pm.m_platefile.default_tile_size * 2 ^ level.toNat) := by
  obtain ⟨h1, h2⟩ := shift_count_of_fit _ _ hT hfit
  have hp : (0 : Int) < 2 ^ level.toNat := by positivity
  have hlt : level < 32 := by omega
  unfold georeference_resolution shl32
  simp only [hL, hlt, and_self, if_true, Option.map_some', one_mul]
  rw [wrap32_of_range _ (by linarith) h1, mul_comm, wrap32_of_range _ (by nlinarith) hfit]

/-- The reference `georeference` returns while `tile_size * 2^level` fits an `int`. -/
theorem georeference_in_range (lib : Cartography) (pm : PlateCarreePlateManager)
    (level : Int) (hL : 0 ≤ level) (hT : 0 < pm.m_platefile.default_tile_size)
    (hfit : pm.m_platefile.default_tile_size * 2 ^ level.toNat < 2 ^ 31) :
    georeference lib pm level = some
      ⟨lib.default_georef.datum, lib.default_georef.proj4_str, PixelInterpretation.PixelAsArea,
        ⟨360 / ((pm.m_platefile.default_tile_size * 2 ^ level.toNat : Int) : ℚ), 0, -180,
         0, -360 / ((pm.m_platefile.default_tile_size * 2 ^ level.toNat : Int) : ℚ), 180,
         0, 0, 1⟩⟩ := by
  have hp : (0 : Int) < 2 ^ level.toNat := by positivity
  have hne : pm.m_platefile.default_tile_size * 2 ^ level.toNat ≠ 0 := by positivity
  unfold georeference
  rw [georeference_resolution_in_range pm level hL hT hfit]
  simp only [hne, if_false]
  rfl

/-- C1 (as amended): for every level `L ≥ 0` and tile size `T > 0` with
`T * 2^L < 2^31`, `georeference(L)` returns a pixel-as-area reference whose
transform has entry (0,0) = 360/(T*2^L), (0,2) = -180, (1,1) = -360/(T*2^L),
(1,2) = 180, (2,2) = 1 and every other entry 0. -/
theorem georeference_transform_in_range (lib : Cartography) (pm : PlateCarreePlateManager)
    (level : Int) (hL : 0 ≤ level) (hT : 0 < pm.m_platefile.default_tile_size)
    (hfit : pm.m_platefile.default_tile_size * 2 ^ level.toNat < 2 ^ 31) :
    ∃ r, georeference lib pm level = some r ∧
      r.pixel_interpretation = PixelInterpretation.PixelAsArea ∧
      r.transform =
        ⟨360 / ((pm.m_platefile.default_tile_size * 2 ^ level.toNat : Int) : ℚ), 0, -180,
         0, -360 / ((pm.m_platefile.default_tile_size * 2 ^ level.toNat : Int) : ℚ), 180,
         0, 0, 1⟩ :=
  ⟨_, georeference_in_range lib pm level hL hT hfit, rfl, rfl⟩

/-- C1, the scenario of the spec: tile size 256 and level 3 give X scale
45/256 = 0.17578125, origin X -180, Y scale -0.17578125, origin Y 180. -/
theorem georeference_transform_in_range_witness :
    (0 : Int) ≤ 3 ∧ (0 : Int) < 256 ∧ (256 : Int) * 2 ^ 3 < 2 ^ 31 ∧
    ∃ r, georeference affineCartography plate256 3 = some r ∧
      r.pixel_interpretation = PixelInterpretation.PixelAsArea ∧
      r.transform = ⟨45 / 256, 0, -180, 0, -(45 / 256), 180, 0, 0, 1⟩ := by
  refine ⟨by decide, by decide, by decide, ?_⟩
  obtain ⟨r, h1, h2, h3⟩ := georeference_transform_in_range affineCartography plate256 3
    (by decide) (by decide) (by decide)
  refine ⟨r, h1, h2, ?_⟩
  rw [h3]
  norm_num [plate256, Int.toNat]

/-- C1 as stated fails: at tile size 256 and level 23 the `int` product
`(1<<23)*256` wraps to -2^31, and entry (0,0) of the returned transform is
-360/2^31, not 360/(256*2^23). -/
theorem georeference_transform_overflow :
    (0 : Int) ≤ 23 ∧ 0 < plate256.m_platefile.default_tile_size ∧
    ∃ r, georeference affineCartography plate256 23 = some r ∧
      r.transform.get 0 0 = -(45 / 268435456) ∧
      r.transform.get 0 0 ≠
        360 / ((plate256.m_platefile.default_tile_size * 2 ^ (23 : Int).toNat : Int) : ℚ) := by
  have hres : georeference_resolution plate256 23 = some (-2147483648) := by decide
  refine ⟨by decide, by decide, ?_⟩
  unfold georeference
  rw [hres]
  refine ⟨_, rfl, ?_, ?_⟩ <;>
    norm_num [plate256, Int.toNat, Matrix3x3.get, Matrix3x3.set, Matrix3x3.zero,
      GeoReference.set_transform, GeoReference.set_pixel_interpretation]

/-- C2 (as amended): for every level `L ≥ 0` and tile size `T > 0` with
`T * 2^L < 2^31`, the machine integer `(1<<L)*T` equals `T * 2^L`, and the
transform of `georeference(L)` maps pixel (0,0) to (-180, 180) and pixel
(T*2^L, T*2^L) to (180, -180). -/
theorem georeference_spans_globe (lib : Cartography) (pm : PlateCarreePlateManager)
    (level : Int) (hL : 0 ≤ level) (hT : 0 < pm.m_platefile.default_tile_size)
    (hfit : pm.m_platefile.default_tile_size * 2 ^ level.toNat < 2 ^ 31) :
    georeference_resolution pm level
      = some (pm.m_platefile.default_tile_size * 2 ^ level.toNat) ∧
    ∃ r, georeference lib pm level = some r ∧
      pixel_to_point r ⟨0, 0⟩ = ⟨-180, 180⟩ ∧
      pixel_to_point r
        ⟨((pm.m_platefile.default_tile_size * 2 ^ level.toNat : Int) : ℚ),
         ((pm.m_platefile.default_tile_size * 2 ^ level.toNat : Int) : ℚ)⟩ = ⟨180, -180⟩ := by
  refine ⟨georeference_resolution_in_range pm level hL hT hfit,
    _, georeference_in_range lib pm level hL hT hfit, ?_, ?_⟩
  · simp [pixel_to_point]
  · have hp : (0 : Int) < 2 ^ level.toNat := by positivity
    have hne : ((pm.m_platefile.default_tile_size * 2 ^ level.toNat : Int) : ℚ) ≠ 0 := by
      have : pm.m_platefile.default_tile_size * 2 ^ level.toNat ≠ 0 := by positivity
      exact_mod_cast this
    simp only [pixel_to_point, Vector2.mk.injEq]
    constructor
    · field_simp; ring
    · field_simp; ring

/-- C2 at tile size 256 and level 3: 2048 pixels per axis, pixel (0,0) at
(-180, 180) and pixel (2048, 2048) at (180, -180). -/
theorem georeference_spans_globe_witness :
    (0 : Int) ≤ 3 ∧ (0 : Int) < 256 ∧ (256 : Int) * 2 ^ 3 < 2 ^ 31 ∧
    georeference_resolution plate256 3 = some 2048 ∧
    ∃ r, georeference affineCartography plate256 3 = some r ∧
      pixel_to_point r ⟨0, 0⟩ = ⟨-180, 180⟩ ∧
      pixel_to_point r ⟨2048, 2048⟩ = ⟨180, -180⟩ := by
  obtain ⟨h0, r, h1, h2, h3⟩ := georeference_spans_globe affineCartography plate256 3
    (by decide) (by decide) (by decide)
  refine ⟨by decide, by decide, by decide, h0, r, h1, h2, ?_⟩
  have h : ((plate256.m_platefile.default_tile_size * 2 ^ (3 : Int).toNat : Int) : ℚ) = 2048 := by
    norm_num [plate256, Int.toNat]
  rw [h] at h3
  exact h3

/-- C2 as stated fails: at tile size 256 and level 24 the machine integer
`(1<<24)*256` is 0, not 256 * 2^24, and no transform spanning the globe comes
out of the division by it. -/
theorem georeference_resolution_overflow :
    (0 : Int) ≤ 24 ∧ 0 < plate256.m_platefile.default_tile_size ∧
    georeference_resolution plate256 24 = some 0 ∧
    (0 : Int) ≠ plate256.m_platefile.default_tile_size * 2 ^ (24 : Int).toNat ∧
    georeference affineCartography plate256 24 = none := by
  refine ⟨by decide, by decide, by decide, by decide, by decide⟩

/-! ## Working resolution and level -/

theorem sample_step_eq_max (a b : Int) : (if b > a then b else a) = max a b := by
  rcases le_or_lt b a with h | h
  · rw [if_neg (not_lt.mpr h), max_eq_left h]
  · rw [if_pos h, max_eq_right h.le]

theorem foldl_max_ge (l : List Int) (a : Int) : a ≤ l.foldl max a := by
  induction l generalizing a with
  | nil => simp
  | cons b t ih => exact le_trans (le_max_left a b) (ih (max a b))

theorem foldl_max_mono (l l' : List Int) (h : List.Forall₂ (fun a b => a ≤ b) l l') :
    ∀ a a' : Int, a ≤ a' → l.foldl max a ≤ l'.foldl max a' := by
  induction h with
  | nil => intro a a' h; simpa using h
  | cons hab _ ih => intro a a' h; exact ih _ _ (max_le_max h hab)

/-- The loop of lines 49-52 is a running maximum that starts at 256. -/
theorem resolution_loop_eq_foldl_max (samples : List Int) :
    resolution_loop samples = samples.foldl max 256 := by
  unfold resolution_loop
  congr 1
  funext a b
  exact sample_step_eq_max a b

theorem resolution_loop_ge (samples : List Int) : 256 ≤ resolution_loop samples := by
  rw [resolution_loop_eq_foldl_max]; exact foldl_max_ge samples 256

/-- The real-number expression `ceil(log(r) / log(2))` is the least `k` with
`r ≤ 2^k`. -/
theorem ceil_log_div_log_eq_clog (r : Int) (hr : 1 ≤ r) :
    ⌈Real.log (r : ℝ) / Real.log 2⌉ = (Nat.clog 2 r.toNat : Int) := by
  obtain ⟨n, rfl⟩ := Int.eq_ofNat_of_zero_le (by omega : 0 ≤ r)
  rw [Real.log_div_log]
  have h := Real.ceil_logb_natCast (b := 2) (r := (n : ℝ)) (by positivity)
  rw [Int.clog_natCast] at h
  simpa using h

theorem ceil_log2_of_ne (r : Int) (h29 : r ≠ 2 ^ 29) :
    ceil_log2 r = (Nat.clog 2 r.toNat : Int) := by
  unfold ceil_log2; rw [if_neg h29]

/-- Away from `2^29` the value `ceil_log2` of line 56 is the real-number
expression `ceil(log(r) / log(2))`. -/
theorem ceil_log2_eq_ceil_log_div_log (r : Int) (hr : 1 ≤ r) (h29 : r ≠ 2 ^ 29) :
    ⌈Real.log (r : ℝ) / Real.log 2⌉ = ceil_log2 r := by
  rw [ceil_log2_of_ne r h29, ceil_log_div_log_eq_clog r hr]

/-- At `2^29` line 56 computes 30, one more than the real-number expression. -/
theorem ceil_log2_two_pow_29 :
    ceil_log2 (2 ^ 29) = 30 ∧ ⌈Real.log ((536870912 : Int) : ℝ) / Real.log 2⌉ = 29 := by
  refine ⟨by decide, ?_⟩
  rw [ceil_log_div_log_eq_clog _ (by norm_num)]
  have : (536870912 : Int).toNat = 2 ^ 29 := by norm_num [Int.toNat]
  rw [this, Nat.clog_pow 2 29 (by norm_num)]
  norm_num

/-- The quotient of the doubles `log(2^29)` and `log(2)` lies above 29 by more
than `2^-49`, half the spacing of the doubles between 16 and 32, and by less
than `2^-48`: the division rounds it up to `29 + 2^-48`, whose `ceil` is 30. -/
theorem double_quotient_two_pow_29 :
    29 + 1 / 2 ^ 49 < log_2_pow_29_double / log_2_double ∧
    log_2_pow_29_double / log_2_double < 29 + 1 / 2 ^ 48 ∧
    ⌈(29 + 1 / 2 ^ 48 : ℚ)⌉ = 30 := by
  refine ⟨by norm_num [log_2_pow_29_double, log_2_double],
    by norm_num [log_2_pow_29_double, log_2_double], ?_⟩
  rw [Int.ceil_eq_iff]; norm_num

theorem ceil_log2_eq (r : Int) (k : Nat) (hlo : 2 ^ k < r) (hhi : r ≤ 2 ^ (k + 1))
    (h29 : r ≠ 2 ^ 29) : ceil_log2 r = k + 1 := by
  have h0 : 0 ≤ r := le_trans (by positivity) hlo.le
  rw [ceil_log2_of_ne r h29]
  obtain ⟨n, rfl⟩ := Int.eq_ofNat_of_zero_le h0
  have hlo' : 2 ^ k < n := by exact_mod_cast hlo
  have hhi' : n ≤ 2 ^ (k + 1) := by exact_mod_cast hhi
  simp only [Int.toNat_ofNat]
  have h1 : Nat.clog 2 n ≤ k + 1 := (Nat.le_pow_iff_clog_le (by norm_num)).mp hhi'
  have h2 : k < Nat.clog 2 n := (Nat.pow_lt_iff_lt_clog (by norm_num)).mp hlo'
  omega

theorem ceil_log2_mono (a b : Int) (h : a ≤ b) : ceil_log2 a ≤ ceil_log2 b := by
  have hmono := Nat.clog_mono_right 2 (Int.toNat_le_toNat h)
  unfold ceil_log2
  by_cases ha : a = 2 ^ 29
  · by_cases hb : b = 2 ^ 29
    · rw [if_pos ha, if_pos hb]
    · rw [if_pos ha, if_neg hb]
      have hlt : 2 ^ 29 < b.toNat := by omega
      have := (Nat.pow_lt_iff_lt_clog (by norm_num)).mp hlt
      omega
  · by_cases hb : b = 2 ^ 29
    · rw [if_neg ha, if_pos hb]
      have hle : a.toNat ≤ 2 ^ 29 := by omega
      have := (Nat.le_pow_iff_clog_le (by norm_num)).mp hle
      omega
    · rw [if_neg ha, if_neg hb]; exact_mod_cast hmono

theorem ceil_log2_ge_8 (r : Int) (hr : 256 ≤ r) : 8 ≤ ceil_log2 r := by
  have h := ceil_log2_mono 256 r hr
  have h8 : ceil_log2 256 = 8 := by
    rw [ceil_log2_eq 256 7 (by norm_num) (by norm_num) (by norm_num)]; norm_num
  omega

/-- The resolution and level `transform_image` hands on are those of the five
estimates taken at `res_pixel`. -/
theorem transform_image_level (lib : Cartography) (pm : PlateCarreePlateManager)
    (georef : GeoReference) (cols rows : Int) :
    (transform_image lib pm georef cols rows).resolution
      = resolution_loop ((res_pixel cols rows).map
          (lib.compute_resolution (correct_input_georef lib georef cols)
            (lib.default_georef.set_datum (correct_input_georef lib georef cols).datum))) ∧
    (transform_image lib pm georef cols rows).level
      = choose_level ((res_pixel cols rows).map
          (lib.compute_resolution (correct_input_georef lib georef cols)
            (lib.default_georef.set_datum (correct_input_georef lib georef cols).datum))) :=
  ⟨rfl, rfl⟩

/-- Scenario 6 of the spec: the estimates [256, 300, 180, 400, 256] give working
resolution 400 and level 1. -/
theorem scenario_resolution_and_level :
    resolution_loop [256, 300, 180, 400, 256] = 400 ∧
    choose_level [256, 300, 180, 400, 256] = 1 := by
  have h400 : resolution_loop [256, 300, 180, 400, 256] = 400 := by decide
  refine ⟨h400, ?_⟩
  unfold choose_level level_of_resolution
  rw [h400, ceil_log2_eq 400 8 (by norm_num) (by norm_num) (by norm_num)]
  norm_num

/-- The working resolution is the maximum of 256 and the five samples. -/
theorem resolution_loop_eq_max (s0 s1 s2 s3 s4 : Int) :
    resolution_loop [s0, s1, s2, s3, s4] = max 256 (max s0 (max s1 (max s2 (max s3 s4)))) := by
  rw [resolution_loop_eq_foldl_max]
  simp only [List.foldl_cons, List.foldl_nil, max_assoc]

/-- Away from the working resolution `2^29` the chosen level is
ceil(log2(working resolution)) - 8 over the reals. -/
theorem choose_level_eq_ceil_log (samples : List Int)
    (h29 : resolution_loop samples ≠ 2 ^ 29) :
    choose_level samples
      = ⌈Real.log ((resolution_loop samples : Int) : ℝ) / Real.log 2⌉ - 8 := by
  have hr := resolution_loop_ge samples
  rw [ceil_log2_eq_ceil_log_div_log _ (by omega) h29]
  rfl

/-- C3 fails on the samples [536870912, 256, 256, 256, 256]: the working
resolution is their maximum 536870912 = 2^29, ceil(log2(2^29)) - 8 is 21, and
the level line 56 computes is 22, because the quotient of the doubles
`log(2^29)` and `log(2)` rounds to a value above 29. -/
theorem level_at_two_pow_29 :
    resolution_loop [536870912, 256, 256, 256, 256] = 536870912 ∧
    choose_level [536870912, 256, 256, 256, 256] = 22 ∧
    ⌈Real.log ((resolution_loop [536870912, 256, 256, 256, 256] : Int) : ℝ) / Real.log 2⌉ - 8
      = 21 ∧
    choose_level [536870912, 256, 256, 256, 256]
      ≠ ⌈Real.log ((resolution_loop [536870912, 256, 256, 256, 256] : Int) : ℝ) / Real.log 2⌉
          - 8 := by
  have h : resolution_loop [536870912, 256, 256, 256, 256] = 536870912 := by decide
  have hL : choose_level [536870912, 256, 256, 256, 256] = 22 := by decide
  have hc : ⌈Real.log ((resolution_loop [536870912, 256, 256, 256, 256] : Int) : ℝ)
      / Real.log 2⌉ = 29 := by
    rw [h]; exact ceil_log2_two_pow_29.2
  refine ⟨h, hL, ?_, ?_⟩
  · rw [hc]; norm_num
  · rw [hc, hL]; norm_num

/-- The level chosen for a working resolution `r ≥ 256` other than `2^29`, in
terms of `Nat.clog`. -/
theorem level_of_resolution_spec (r : Int) (hr : 256 ≤ r) (h29 : r ≠ 2 ^ 29) :
    ∃ n c : Nat, r = n ∧ c = Nat.clog 2 n ∧ 8 ≤ c ∧ level_of_resolution r = (c : Int) - 8 := by
  obtain ⟨n, rfl⟩ := Int.eq_ofNat_of_zero_le (by omega : 0 ≤ r)
  have hn : 256 ≤ n := by exact_mod_cast hr
  have h8 : 8 ≤ Nat.clog 2 n := by
    have := Nat.clog_mono_right 2 hn
    rwa [show (256 : Nat) = 2 ^ 8 by norm_num, Nat.clog_pow 2 8 (by norm_num)] at this
  exact ⟨n, Nat.clog 2 n, rfl, rfl, h8, by simp [level_of_resolution, ceil_log2_of_ne _ h29]⟩

/-- The level chosen for the working resolution `2^29`. -/
theorem level_of_resolution_two_pow_29 : level_of_resolution (2 ^ 29) = 22 := by decide

/-- C4 (as amended): with tile size 256, the chosen level `L` is non-negative
and `256 * 2^L ≥ r` for every working resolution `r`; when `r` is not `2^29`,
`L` is the least such integer; when `r ≤ 2^30` the pixel count per axis of
`georeference(L)` is at least `r`; and when `r` is not `2^29` and `L > 0`
(with `r` an `int`, below 2^31) the pixel count per axis of `georeference(L-1)`
is strictly less than `r`. -/
theorem chosen_level_least_cover (pm : PlateCarreePlateManager)
    (hT : pm.m_platefile.default_tile_size = 256) (samples : List Int) :
    0 ≤ choose_level samples ∧
    resolution_loop samples ≤ 256 * 2 ^ (choose_level samples).toNat ∧
    (resolution_loop samples ≠ 2 ^ 29 →
      ∀ k : Nat, resolution_loop samples ≤ 256 * 2 ^ k → choose_level samples ≤ k) ∧
    (resolution_loop samples ≤ 2 ^ 30 →
      ∃ n, georeference_resolution pm (choose_level samples) = some n ∧
        resolution_loop samples ≤ n) ∧
    (resolution_loop samples ≠ 2 ^ 29 → resolution_loop samples < 2 ^ 31 →
      0 < choose_level samples →
      ∃ n, georeference_resolution pm (choose_level samples - 1) = some n ∧
        n < resolution_loop samples) := by
  by_cases h29 : resolution_loop samples = 2 ^ 29
  · have hL : choose_level samples = 22 := by
      unfold choose_level; rw [h29]; exact level_of_resolution_two_pow_29
    rw [hL, h29]
    refine ⟨by norm_num, by norm_num [Int.toNat], fun h => absurd rfl h, ?_,
      fun h => absurd rfl h⟩
    intro _
    refine ⟨256 * 2 ^ 22, ?_, by norm_num⟩
    have := georeference_resolution_in_range pm 22 (by norm_num) (by rw [hT]; norm_num)
      (by rw [hT]; norm_num [Int.toNat])
    rw [this, hT]; norm_num [Int.toNat]
  have hr := resolution_loop_ge samples
  obtain ⟨n, c, hn, hc, h8, hlev⟩ := level_of_resolution_spec _ hr h29
  unfold choose_level
  rw [hlev, show ((c : Int) - 8).toNat = c - 8 by omega, hn]
  rw [hn] at hr
  have hn256 : 256 ≤ n := by exact_mod_cast hr
  have hle : n ≤ 2 ^ c := hc ▸ Nat.le_pow_clog (by norm_num) n
  have hsplit : ∀ m : Nat, 8 ≤ m → (256 : Int) * 2 ^ (m - 8) = 2 ^ m := by
    intro m hm
    obtain ⟨d, rfl⟩ := Nat.exists_eq_add_of_le hm
    rw [show 8 + d - 8 = d by omega, pow_add]; norm_num
  have hcover : (n : Int) ≤ 256 * 2 ^ (c - 8) := by
    rw [hsplit c h8]; exact_mod_cast hle
  refine ⟨by omega, hcover, ?_, ?_, ?_⟩
  · intro _ k hk
    have hk' : n ≤ 2 ^ (k + 8) := by
      have : (n : Int) ≤ 2 ^ (k + 8) := by rw [pow_add]; linarith
      exact_mod_cast this
    have := (Nat.le_pow_iff_clog_le (by norm_num)).mp hk'
    omega
  · intro h30
    have hc30 : c ≤ 30 := by
      rw [hc]; exact (Nat.le_pow_iff_clog_le (by norm_num)).mp (by exact_mod_cast h30)
    have hfit : (256 : Int) * 2 ^ (c - 8) < 2 ^ 31 := by
      rw [hsplit c h8]
      exact lt_of_le_of_lt (pow_le_pow_right₀ (by norm_num) hc30) (by norm_num)
    refine ⟨256 * 2 ^ (c - 8), ?_, hcover⟩
    have := georeference_resolution_in_range pm ((c : Int) - 8) (by omega) (by rw [hT]; norm_num)
      (by rw [hT, show ((c : Int) - 8).toNat = c - 8 by omega]; exact hfit)
    rw [this, hT, show ((c : Int) - 8).toNat = c - 8 by omega]
  · intro _ h31 hpos
    have hc31 : c ≤ 31 := by
      rw [hc]; exact (Nat.le_pow_iff_clog_le (by norm_num)).mp (by exact_mod_cast h31.le)
    have hc9 : 9 ≤ c := by omega
    have hnat : ((c : Int) - 8 - 1).toNat = c - 1 - 8 := by omega
    have hfit : (256 : Int) * 2 ^ (c - 1 - 8) < 2 ^ 31 := by
      rw [hsplit (c - 1) (by omega)]
      exact lt_of_le_of_lt (pow_le_pow_right₀ (by norm_num) (by omega : c - 1 ≤ 30)) (by norm_num)
    have hlt : 2 ^ (c - 1) < n := by
      have := Nat.pow_pred_clog_lt_self (b := 2) (by norm_num) (x := n) (by omega)
      rwa [← hc, Nat.pred_eq_sub_one] at this
    refine ⟨256 * 2 ^ (c - 1 - 8), ?_, ?_⟩
    · have := georeference_resolution_in_range pm ((c : Int) - 8 - 1) (by omega)
        (by rw [hT]; norm_num) (by rw [hT, hnat]; exact hfit)
      rw [this, hT, hnat]
    · rw [hsplit (c - 1) (by omega)]; exact_mod_cast hlt

/-- C4 on the store of tile size 256 and the estimates of scenario 6: working
resolution 400, level 1, 512 pixels per axis at level 1 and 256 at level 0. -/
theorem chosen_level_least_cover_witness :
    plate256.m_platefile.default_tile_size = 256 ∧
    resolution_loop [256, 300, 180, 400, 256] = 400 ∧
    resolution_loop [256, 300, 180, 400, 256] ≠ 2 ^ 29 ∧
    choose_level [256, 300, 180, 400, 256] = 1 ∧
    0 ≤ choose_level [256, 300, 180, 400, 256] ∧
    resolution_loop [256, 300, 180, 400, 256]
      ≤ 256 * 2 ^ (choose_level [256, 300, 180, 400, 256]).toNat ∧
    (∀ k : Nat, resolution_loop [256, 300, 180, 400, 256] ≤ 256 * 2 ^ k →
      choose_level [256, 300, 180, 400, 256] ≤ k) ∧
    (∃ n, georeference_resolution plate256 (choose_level [256, 300, 180, 400, 256]) = some n ∧
      resolution_loop [256, 300, 180, 400, 256] ≤ n) ∧
    (∃ n, georeference_resolution plate256 (choose_level [256, 300, 180, 400, 256] - 1)
        = some n ∧ n < resolution_loop [256, 300, 180, 400, 256]) := by
  obtain ⟨h400, hL⟩ := scenario_resolution_and_level
  have h29 : resolution_loop [256, 300, 180, 400, 256] ≠ 2 ^ 29 := by rw [h400]; norm_num
  obtain ⟨a, b, c, d, e⟩ := chosen_level_least_cover plate256 rfl [256, 300, 180, 400, 256]
  exact ⟨rfl, h400, h29, hL, a, b, c h29, d (by rw [h400]; norm_num),
    e h29 (by rw [h400]; norm_num) (by rw [hL]; norm_num)⟩

/-- C4 as stated fails: the working resolution 2^30 + 1 gives level 23, and
the pixel count per axis that `georeference(23)` computes for tile size 256 is
the wrapped `int` -2^31, which is not at least 2^30 + 1. -/
theorem chosen_level_overflow :
    resolution_loop [1073741825, 256, 256, 256, 256] = 1073741825 ∧
    choose_level [1073741825, 256, 256, 256, 256] = 23 ∧
    georeference_resolution plate256 23 = some (-2147483648) ∧
    ¬ (1073741825 : Int) ≤ -2147483648 := by
  have h : resolution_loop [1073741825, 256, 256, 256, 256] = 1073741825 := by decide
  refine ⟨h, ?_, by decide, by decide⟩
  unfold choose_level level_of_resolution
  rw [h, ceil_log2_eq 1073741825 30 (by norm_num) (by norm_num) (by norm_num)]
  norm_num

/-! ## The longitude wraparound correction -/

theorem get_set_02 (t : Matrix3x3) (v : ℚ) : (t.set 0 2 v).get 0 2 = v := rfl

theorem get_02_eq (t : Matrix3x3) : t.get 0 2 = t.m02 := rfl

theorem shift_far_right_pos (t : Matrix3x3) (h : t.m02 > 180) :
    shift_far_right t = t.set 0 2 (t.m02 - 360) := by
  unfold shift_far_right; rw [get_02_eq, if_pos h]

theorem shift_far_right_neg (t : Matrix3x3) (h : ¬ t.m02 > 180) : shift_far_right t = t := by
  unfold shift_far_right; rw [get_02_eq, if_neg h]

theorem shift_far_left_pos (lon : ℚ) (t : Matrix3x3) (h : lon < -180) :
    shift_far_left lon t = t.set 0 2 (t.m02 + 360) := by
  unfold shift_far_left; rw [get_02_eq, if_pos h]

theorem shift_far_left_neg (lon : ℚ) (t : Matrix3x3) (h : ¬ lon < -180) :
    shift_far_left lon t = t := by
  unfold shift_far_left; rw [if_neg h]

/-- The corrected reference of a longitude/latitude input: both shifts, the
second one decided by the longitude of pixel `(cols-1, 0)` in the input. -/
theorem correct_input_georef_longlat (lib : Cartography) (g : GeoReference) (cols : Int)
    (hproj : contains g.proj4_str "+proj=longlat" = true) :
    correct_input_georef lib g cols
      = g.set_transform (shift_far_left
          (lib.pixel_to_lonlat g ⟨((cols - 1 : Int) : ℚ), 0⟩).x (shift_far_right g.transform)) := by
  unfold correct_input_georef
  simp only [hproj, if_true]

/-- The correction under the affine longitude, for a longitude/latitude reference. -/
theorem affine_correct_longlat (g : GeoReference) (cols : Int)
    (hproj : contains g.proj4_str "+proj=longlat" = true) :
    correct_input_georef affineCartography g cols
      = g.set_transform (shift_far_left
          (g.transform.m00 * ((cols - 1 : Int) : ℚ) + g.transform.m02)
          (shift_far_right g.transform)) := by
  rw [correct_input_georef_longlat _ _ _ hproj]
  simp only [affineCartography, pixel_to_point, mul_zero, add_zero]

/-- C5: for a longitude/latitude input reference whose horizontal origin offset
`o` exceeds 180, when the longitude of the top-right pixel `(cols-1, 0)` (the
one line 27 asks for) is not below -180, the corrected reference of
`transform_image` has horizontal origin offset `o - 360`. -/
theorem correction_far_right (lib : Cartography) (pm : PlateCarreePlateManager)
    (g : GeoReference) (cols rows : Int)
    (hproj : contains g.proj4_str "+proj=longlat" = true)
    (ho : g.transform.get 0 2 > 180)
    (hlon : ¬ (lib.pixel_to_lonlat g ⟨((cols - 1 : Int) : ℚ), 0⟩).x < -180) :
    (transform_image lib pm g cols rows).input_georef.transform.get 0 2
      = g.transform.get 0 2 - 360 := by
  show (correct_input_georef lib g cols).transform.get 0 2 = _
  rw [correct_input_georef_longlat lib g cols hproj]
  simp only [shift_far_left, shift_far_right, hlon, ho, if_true, if_false,
    GeoReference.set_transform, get_set_02]

/-- C5, the scenario of the spec: offset 200 becomes 200 - 360 = -160. -/
theorem correction_far_right_witness :
    contains georef_east200.proj4_str "+proj=longlat" = true ∧
    georef_east200.transform.get 0 2 = 200 ∧
    ¬ (affineCartography.pixel_to_lonlat georef_east200 ⟨((100 - 1 : Int) : ℚ), 0⟩).x < -180 ∧
    (transform_image affineCartography plate256 georef_east200 100 100).input_georef.transform.get
      0 2 = -160 := by
  have hproj : contains georef_east200.proj4_str "+proj=longlat" = true := by decide
  have hlon : ¬ (affineCartography.pixel_to_lonlat georef_east200
      ⟨((100 - 1 : Int) : ℚ), 0⟩).x < -180 := by
    norm_num [affineCartography, pixel_to_point, georef_east200]
  have h := correction_far_right affineCartography plate256 georef_east200 100 100 hproj
    (by norm_num [georef_east200, Matrix3x3.get]) hlon
  refine ⟨hproj, rfl, hlon, ?_⟩
  rw [h]
  norm_num [georef_east200, Matrix3x3.get]

/-- C6 (as amended): for every longitude/latitude input reference and image
width, 360 is added to the horizontal offset left by the first check if and
only if the longitude of the top-right pixel `(cols-1, 0)`, computed from the
input reference as it was given (its transform is replaced only after both
checks), is less than -180. -/
theorem second_check_reads_input (lib : Cartography) (g : GeoReference) (cols : Int)
    (hproj : contains g.proj4_str "+proj=longlat" = true) :
    (correct_input_georef lib g cols).transform.get 0 2
        = (shift_far_right g.transform).get 0 2 + 360
      ↔ (lib.pixel_to_lonlat g ⟨((cols - 1 : Int) : ℚ), 0⟩).x < -180 := by
  rw [correct_input_georef_longlat lib g cols hproj]
  unfold shift_far_left
  by_cases h : (lib.pixel_to_lonlat g ⟨((cols - 1 : Int) : ℚ), 0⟩).x < -180
  · simp only [h, if_true, GeoReference.set_transform, get_set_02]
  · simp only [h, if_false, GeoReference.set_transform, iff_false]
    intro hc
    linarith

/-- C6 on the reference with offset 200 and a 100 pixel wide image. -/
theorem second_check_reads_input_witness :
    contains georef_east200.proj4_str "+proj=longlat" = true ∧
    ((correct_input_georef affineCartography georef_east200 100).transform.get 0 2
        = (shift_far_right georef_east200.transform).get 0 2 + 360
      ↔ (affineCartography.pixel_to_lonlat georef_east200 ⟨((100 - 1 : Int) : ℚ), 0⟩).x < -180) :=
  ⟨by decide, second_check_reads_input affineCartography georef_east200 100 (by decide)⟩

/-- C6 as stated fails: on the mirrored reference with offset 200 and a 101
pixel wide image, the longitude of the top-right pixel computed with the
offset left by the first check (-160) is -260 < -180, yet 360 is not added:
the corrected offset stays -160, because the longitude the code reads is that
of the input, 100. -/
theorem second_check_not_on_corrected :
    contains georef_mirrored.proj4_str "+proj=longlat" = true ∧
    (affineCartography.pixel_to_lonlat
        (georef_mirrored.set_transform (shift_far_right georef_mirrored.transform))
        ⟨((101 - 1 : Int) : ℚ), 0⟩).x < -180 ∧
    (correct_input_georef affineCartography georef_mirrored 101).transform.get 0 2 = -160 ∧
    (correct_input_georef affineCartography georef_mirrored 101).transform.get 0 2
      ≠ (shift_far_right georef_mirrored.transform).get 0 2 + 360 := by
  have hproj : contains georef_mirrored.proj4_str "+proj=longlat" = true := by decide
  rw [correct_input_georef_longlat _ _ _ hproj]
  refine ⟨hproj, ?_, ?_, ?_⟩ <;>
    norm_num [affineCartography, pixel_to_point, georef_mirrored, shift_far_right,
      shift_far_left, Matrix3x3.get, Matrix3x3.set, GeoReference.set_transform]

/-- C7 (as amended): under the affine longitude, for every input reference and
image width with non-negative horizontal extent `t00 * (cols-1)`, horizontal
offset at most 540 and top-right longitude at least -540, applying the
correction to the corrected reference returns it unchanged. -/
theorem correction_idempotent_in_range (g : GeoReference) (cols : Int)
    (hw : 0 ≤ g.transform.m00 * ((cols - 1 : Int) : ℚ))
    (ho : g.transform.get 0 2 ≤ 540)
    (hlon : -540 ≤ (pixel_to_point g ⟨((cols - 1 : Int) : ℚ), 0⟩).x) :
    correct_input_georef affineCartography (correct_input_georef affineCartography g cols) cols
      = correct_input_georef affineCartography g cols := by
  by_cases hproj : contains g.proj4_str "+proj=longlat" = true
  · have hproj' : contains (correct_input_georef affineCartography g cols).proj4_str
        "+proj=longlat" = true := by
      rw [correct_input_georef_longlat _ _ _ hproj]; exact hproj
    rw [affine_correct_longlat _ _ hproj']
    rw [affine_correct_longlat _ _ hproj]
    obtain ⟨d, p, pi, t⟩ := g
    simp only [get_02_eq, pixel_to_point, mul_zero, add_zero] at ho hlon hw
    simp only [GeoReference.set_transform]
    generalize ((cols - 1 : Int) : ℚ) = c at *
    by_cases hA : t.m02 > 180 <;> by_cases hB : t.m00 * c + t.m02 < -180
    · exfalso; linarith
    · rw [shift_far_right_pos t hA, shift_far_left_neg _ _ hB]
      have h1 : ¬ (t.set 0 2 (t.m02 - 360)).m02 > 180 := by
        show ¬ t.m02 - 360 > 180
        linarith
      have h2 : ¬ (t.set 0 2 (t.m02 - 360)).m00 * c + (t.set 0 2 (t.m02 - 360)).m02 < -180 := by
        show ¬ t.m00 * c + (t.m02 - 360) < -180
        linarith
      rw [shift_far_right_neg _ h1, shift_far_left_neg _ _ h2]
    · rw [shift_far_right_neg t hA, shift_far_left_pos _ _ hB]
      have h1 : ¬ (t.set 0 2 (t.m02 + 360)).m02 > 180 := by
        show ¬ t.m02 + 360 > 180
        linarith
      have h2 : ¬ (t.set 0 2 (t.m02 + 360)).m00 * c + (t.set 0 2 (t.m02 + 360)).m02 < -180 := by
        show ¬ t.m00 * c + (t.m02 + 360) < -180
        linarith
      rw [shift_far_right_neg _ h1, shift_far_left_neg _ _ h2]
    · rw [shift_far_right_neg t hA, shift_far_left_neg _ _ hB]
      rw [shift_far_right_neg t hA, shift_far_left_neg _ _ hB]
  · have h : ∀ r : GeoReference, contains r.proj4_str "+proj=longlat" ≠ true →
        correct_input_georef affineCartography r cols = r := by
      intro r hr
      unfold correct_input_georef
      rw [if_neg hr]
    rw [h g hproj, h g hproj]

/-- C7 on the reference with offset 200 and a 100 pixel wide image: corrected
once to -160, and unchanged by a second correction. -/
theorem correction_idempotent_in_range_witness :
    0 ≤ georef_east200.transform.m00 * ((100 - 1 : Int) : ℚ) ∧
    georef_east200.transform.get 0 2 ≤ 540 ∧
    -540 ≤ (pixel_to_point georef_east200 ⟨((100 - 1 : Int) : ℚ), 0⟩).x ∧
    correct_input_georef affineCartography
        (correct_input_georef affineCartography georef_east200 100) 100
      = correct_input_georef affineCartography georef_east200 100 := by
  have h1 : 0 ≤ georef_east200.transform.m00 * ((100 - 1 : Int) : ℚ) := by
    norm_num [georef_east200]
  have h2 : georef_east200.transform.get 0 2 ≤ 540 := by
    norm_num [georef_east200, Matrix3x3.get]
  have h3 : -540 ≤ (pixel_to_point georef_east200 ⟨((100 - 1 : Int) : ℚ), 0⟩).x := by
    norm_num [georef_east200, pixel_to_point]
  exact ⟨h1, h2, h3, correction_idempotent_in_range georef_east200 100 h1 h2 h3⟩

/-- C7 as stated fails: the reference with offset 600 (100 pixel wide image) is
corrected to offset 240, and correcting that again gives offset -120. -/
theorem correction_not_idempotent :
    (correct_input_georef affineCartography georef_east600 100).transform.get 0 2 = 240 ∧
    (correct_input_georef affineCartography
      (correct_input_georef affineCartography georef_east600 100) 100).transform.get 0 2 = -120 ∧
    correct_input_georef affineCartography
        (correct_input_georef affineCartography georef_east600 100) 100
      ≠ correct_input_georef affineCartography georef_east600 100 := by
  have hproj : contains georef_east600.proj4_str "+proj=longlat" = true := by decide
  have h1 : correct_input_georef affineCartography georef_east600 100
      = ⟨⟨"WGS84"⟩, "+proj=longlat +datum=WGS84", .PixelAsArea,
          ⟨1 / 10, 0, 240, 0, -(1 / 10), 90, 0, 0, 1⟩⟩ := by
    rw [correct_input_georef_longlat _ _ _ hproj]
    norm_num [affineCartography, pixel_to_point, georef_east600, shift_far_right,
      shift_far_left, Matrix3x3.get, Matrix3x3.set, GeoReference.set_transform]
  have h2 : correct_input_georef affineCartography
      ⟨⟨"WGS84"⟩, "+proj=longlat +datum=WGS84", .PixelAsArea,
          ⟨1 / 10, 0, 240, 0, -(1 / 10), 90, 0, 0, 1⟩⟩ 100
      = ⟨⟨"WGS84"⟩, "+proj=longlat +datum=WGS84", .PixelAsArea,
          ⟨1 / 10, 0, -120, 0, -(1 / 10), 90, 0, 0, 1⟩⟩ := by
    rw [correct_input_georef_longlat _ _ _ (by decide)]
    norm_num [affineCartography, pixel_to_point, shift_far_right,
      shift_far_left, Matrix3x3.get, Matrix3x3.set, GeoReference.set_transform]
  rw [h1, h2]
  refine ⟨by norm_num [Matrix3x3.get], by norm_num [Matrix3x3.get], ?_⟩
  intro h
  have := congrArg (fun r => r.transform.m02) h
  norm_num at this

/-! ## Monotonicity of the level -/

/-- C8: the resolution-to-level mapping is monotonic: when every one of five
samples `r i` is at most the matching sample `r' i`, the level chosen for `r`
is at most the level chosen for `r'`. -/
theorem choose_level_monotone (r r' : Fin 5 → Int) (h : ∀ i, r i ≤ r' i) :
    choose_level [r 0, r 1, r 2, r 3, r 4] ≤ choose_level [r' 0, r' 1, r' 2, r' 3, r' 4] := by
  have hres : resolution_loop [r 0, r 1, r 2, r 3, r 4]
      ≤ resolution_loop [r' 0, r' 1, r' 2, r' 3, r' 4] := by
    rw [resolution_loop_eq_foldl_max, resolution_loop_eq_foldl_max]
    refine foldl_max_mono _ _ ?_ 256 256 le_rfl
    exact .cons (h 0) (.cons (h 1) (.cons (h 2) (.cons (h 3) (.cons (h 4) .nil))))
  unfold choose_level level_of_resolution
  have := ceil_log2_mono _ _ hres
  omega

/-- C8 on the estimates of scenario 6 and the same with the fourth raised. -/
theorem choose_level_monotone_witness :
    (∀ i, samples_scenario i ≤ samples_raised i) ∧
    choose_level [samples_scenario 0, samples_scenario 1, samples_scenario 2,
        samples_scenario 3, samples_scenario 4]
      ≤ choose_level [samples_raised 0, samples_raised 1, samples_raised 2,
        samples_raised 3, samples_raised 4] :=
  ⟨by decide, choose_level_monotone samples_scenario samples_raised (by decide)⟩

/-! ## `generate_mipmap_tile` -/

theorem read_child_ok (pm : PlateCarreePlateManager) (tile_size col row level : Int)
    (tid : Transaction) (super child : ImageView) (i j : Int)
    (h : child_read pm col row level tid i j = .ok child) :
    read_child pm tile_size col row level tid super i j
      = .ok (crop_assign super (wrap32 (tile_size * i)) (wrap32 (tile_size * j))
          tile_size tile_size child) := by
  unfold child_read at h
  unfold read_child
  simp only [h]

theorem read_child_absent (pm : PlateCarreePlateManager) (tile_size col row level : Int)
    (tid : Transaction) (super : ImageView) (i j : Int)
    (h : child_read pm col row level tid i j = .error .TileNotFoundErr) :
    read_child pm tile_size col row level tid super i j = .ok super := by
  unfold child_read at h
  unfold read_child
  simp only [h]

/-- An invariant of `super` that the empty buffer has and every child step
keeps holds after the two loops, which then end without an exception. -/
theorem gather_children_inv (pm : PlateCarreePlateManager) (col row level : Int)
    (tid : Transaction) (P : ImageView → Prop)
    (h0 : P (ImageView.make (wrap32 (2 * pm.m_platefile.default_tile_size))
      (wrap32 (2 * pm.m_platefile.default_tile_size))))
    (hstep : ∀ i j : Int, (i = 0 ∨ i = 1) → (j = 0 ∨ j = 1) → ∀ s, P s →
      ∃ s', read_child pm pm.m_platefile.default_tile_size col row level tid s i j = .ok s'
        ∧ P s') :
    ∃ super, gather_children pm col row level tid = .ok super ∧ P super := by
  obtain ⟨s1, e1, p1⟩ := hstep 0 0 (.inl rfl) (.inl rfl) _ h0
  obtain ⟨s2, e2, p2⟩ := hstep 1 0 (.inr rfl) (.inl rfl) _ p1
  obtain ⟨s3, e3, p3⟩ := hstep 0 1 (.inl rfl) (.inr rfl) _ p2
  obtain ⟨s4, e4, p4⟩ := hstep 1 1 (.inr rfl) (.inr rfl) _ p3
  refine ⟨s4, ?_, p4⟩
  unfold gather_children
  simp only [List.foldlM_cons, List.foldlM_nil, e1, e2, e3, e4, bind, Except.bind, pure,
    Except.pure]

/-- Once the children are gathered, the run ends normally with no write when
`new_tile` is transparent and with the one write of `new_tile` otherwise. -/
theorem generate_mipmap_tile_of_gather (pm : PlateCarreePlateManager) (col row level : Int)
    (tid : Transaction) (preblur : Bool) (super : ImageView)
    (h : gather_children pm col row level tid = .ok super) :
    generate_mipmap_tile pm col row level tid preblur
      = .ok (if is_transparent (downsample super preblur) then []
             else [⟨downsample super preblur, col, row, level, tid⟩]) := by
  unfold generate_mipmap_tile
  rw [h]
  by_cases ht : is_transparent (downsample super preblur) = true <;> simp [ht]

theorem children_present_or_absent_iff (pm : PlateCarreePlateManager) (col row level : Int)
    (tid : Transaction) :
    children_present_or_absent pm col row level tid = true ↔
      ∀ i j : Int, (i = 0 ∨ i = 1) → (j = 0 ∨ j = 1) →
        (∃ child, child_read pm col row level tid i j = .ok child) ∨
        child_read pm col row level tid i j = .error .TileNotFoundErr := by
  unfold children_present_or_absent
  simp only [List.all_cons, List.all_nil, Bool.and_true, Bool.and_eq_true]
  constructor
  · rintro ⟨⟨h00, h10⟩, h01, h11⟩ i j hi hj
    rcases hi with rfl | rfl <;> rcases hj with rfl | rfl
    · revert h00; split <;> simp_all
    · revert h01; split <;> simp_all
    · revert h10; split <;> simp_all
    · revert h11; split <;> simp_all
  · intro h
    refine ⟨⟨?_, ?_⟩, ?_, ?_⟩
    · rcases h 0 0 (.inl rfl) (.inl rfl) with ⟨c, hc⟩ | hc <;> simp [hc]
    · rcases h 1 0 (.inr rfl) (.inl rfl) with ⟨c, hc⟩ | hc <;> simp [hc]
    · rcases h 0 1 (.inl rfl) (.inr rfl) with ⟨c, hc⟩ | hc <;> simp [hc]
    · rcases h 1 1 (.inr rfl) (.inr rfl) with ⟨c, hc⟩ | hc <;> simp [hc]

theorem pixel_smul_zero (k : ℚ) : k • (0 : PixelGrayA) = 0 := by
  show (⟨k * 0, k * 0⟩ : PixelGrayA) = ⟨0, 0⟩
  simp

theorem pixel_add_zero : (0 : PixelGrayA) + 0 = 0 := by
  show (⟨0 + 0, 0 + 0⟩ : PixelGrayA) = ⟨0, 0⟩
  simp

theorem is_transparent_iff (img : ImageView) :
    is_transparent img = true ↔
      ∀ x y : Nat, x < img.cols → y < img.rows → (img.pix x y).a = 0 := by
  unfold is_transparent
  simp only [List.all_eq_true, List.mem_range, decide_eq_true_eq]
  constructor
  · intro h x y hx hy; exact h x hx y hy
  · intro h x hx y hy; exact h x y hx hy

theorem tile_is_zero_iff (tile_size : Int) (tile : ImageView) :
    tile_is_zero tile_size tile = true ↔
      ∀ x y : Nat, x < tile_size.toNat → y < tile_size.toNat → tile.pix x y = 0 := by
  unfold tile_is_zero
  simp only [List.all_eq_true, List.mem_range, decide_eq_true_eq]
  constructor
  · intro h x y hx hy; exact h x hx y hy
  · intro h x hx y hy; exact h x y hx hy

/-- Both ways of downsampling turn an all-zero buffer into an all-zero tile. -/
theorem downsample_zero (img : ImageView) (preblur : Bool) (h : ∀ x y, img.pix x y = 0) :
    ∀ x y, (downsample img preblur).pix x y = 0 := by
  intro x y
  cases preblur
  · simp only [downsample, subsample, Bool.false_eq_true, if_false, h]
  · simp only [downsample, subsample, separable_convolution_filter, ConstantEdgeExtension, kernel,
      if_true, h, List.enum_cons, List.enumFrom_cons, List.enumFrom_nil, List.enum_nil,
      List.map_cons, List.map_nil, List.sum_cons, List.sum_nil, pixel_smul_zero, pixel_add_zero]

theorem children_absent_or_zero_spec (pm : PlateCarreePlateManager) (col row level : Int)
    (tid : Transaction) (h : children_absent_or_zero pm col row level tid = true) :
    ∀ i j : Int, (i = 0 ∨ i = 1) → (j = 0 ∨ j = 1) →
      child_read pm col row level tid i j = .error .TileNotFoundErr ∨
      ∃ child, child_read pm col row level tid i j = .ok child ∧
        tile_is_zero pm.m_platefile.default_tile_size child = true := by
  unfold children_absent_or_zero at h
  simp only [List.all_cons, List.all_nil, Bool.and_true, Bool.and_eq_true] at h
  obtain ⟨⟨h00, h10⟩, h01, h11⟩ := h
  intro i j hi hj
  rcases hi with rfl | rfl <;> rcases hj with rfl | rfl
  · revert h00; split <;> simp_all
  · revert h01; split <;> simp_all
  · revert h10; split <;> simp_all
  · revert h11; split <;> simp_all

/-- C10: for both values of `preblur`, when every one of the four children is
absent (`TileNotFoundErr`) or an all-zero tile, `generate_mipmap_tile` ends
normally and makes no write. -/
theorem generate_mipmap_tile_skips_zero_children (pm : PlateCarreePlateManager)
    (col row level : Int) (tid : Transaction) (preblur : Bool)
    (h : children_absent_or_zero pm col row level tid = true) :
    generate_mipmap_tile pm col row level tid preblur = .ok [] := by
  have h := children_absent_or_zero_spec pm col row level tid h
  obtain ⟨super, hs, hz⟩ := gather_children_inv pm col row level tid
    (fun s => ∀ x y, s.pix x y = 0) (fun _ _ => rfl)
    (by
      intro i j hi hj s hs
      rcases h i j hi hj with hc | ⟨child, hc, hzero⟩
      · exact ⟨_, read_child_absent pm _ col row level tid s i j hc, hs⟩
      · refine ⟨_, read_child_ok pm _ col row level tid s child i j hc, ?_⟩
        rw [tile_is_zero_iff] at hzero
        intro x y
        unfold crop_assign
        simp only
        split
        · rename_i hwin
          exact hzero _ _ (by omega) (by omega)
        · exact hs x y)
  rw [generate_mipmap_tile_of_gather pm col row level tid preblur super hs]
  have ht : is_transparent (downsample super preblur) = true := by
    rw [is_transparent_iff]
    intro x y _ _
    rw [downsample_zero super preblur hz]
    rfl
  rw [ht]
  rfl

/-- C10 on a store that holds one all-zero child, the other three absent, with
the blur on. -/
theorem generate_mipmap_tile_skips_zero_children_witness :
    children_absent_or_zero plate_zero_child 0 0 0 7 = true ∧
    generate_mipmap_tile plate_zero_child 0 0 0 7 true = .ok [] :=
  ⟨by decide, generate_mipmap_tile_skips_zero_children plate_zero_child 0 0 0 7 true (by decide)⟩

/-! ## Exceptions and store dependence of `generate_mipmap_tile` -/

theorem child_order_eq : child_order = [(0, 0), (1, 0), (0, 1), (1, 1)] := rfl

theorem gather_children_eq_foldlM (pm : PlateCarreePlateManager) (col row level : Int)
    (tid : Transaction) :
    gather_children pm col row level tid
      = child_order.foldlM
          (fun super p =>
            read_child pm pm.m_platefile.default_tile_size col row level tid super p.1 p.2)
          (ImageView.make (wrap32 (2 * pm.m_platefile.default_tile_size))
            (wrap32 (2 * pm.m_platefile.default_tile_size))) := by
  rw [child_order_eq]
  unfold gather_children
  simp only [List.foldlM_cons, List.foldlM_nil, bind_assoc, pure_bind, bind_pure]

theorem read_child_error (pm : PlateCarreePlateManager) (tile_size col row level : Int)
    (tid : Transaction) (super : ImageView) (i j : Int) (e : Exception)
    (h : child_read pm col row level tid i j = .error e) (hne : e ≠ .TileNotFoundErr) :
    read_child pm tile_size col row level tid super i j = .error e := by
  unfold child_read at h
  unfold read_child
  simp only [h]

theorem foldlM_error_at {σ α : Type} (f : σ → α → Except Exception σ)
    (before after : List α) (a : α) (e : Exception)
    (hbefore : ∀ p ∈ before, ∀ s, ∃ s', f s p = .ok s')
    (hfail : ∀ s, f s a = .error e) :
    ∀ s, (before ++ a :: after).foldlM f s = .error e := by
  induction before with
  | nil =>
    intro s
    simp only [List.nil_append, List.foldlM_cons, hfail s]
    rfl
  | cons b t ih =>
    intro s
    obtain ⟨s', hs'⟩ := hbefore b (List.mem_cons_self _ _) s
    simp only [List.cons_append, List.foldlM_cons, hs']
    exact ih (fun p hp => hbefore p (List.mem_cons_of_mem _ hp)) s'

/-- C14: if a child read fails with an exception other than `TileNotFoundErr`,
the children being visited in the order (0,0), (1,0), (0,1), (1,1) and the
reads before it having succeeded or thrown `TileNotFoundErr` (it is the first
such read), `generate_mipmap_tile` leaves with that exception; it has made no
`write_update` call, the only one being after the loops. -/
theorem generate_mipmap_tile_propagates (pm : PlateCarreePlateManager) (col row level : Int)
    (tid : Transaction) (preblur : Bool) (before after : List (Int × Int)) (ij : Int × Int)
    (e : Exception)
    (horder : child_order = before ++ ij :: after)
    (hbefore : ∀ p ∈ before,
      (∃ child, child_read pm col row level tid p.1 p.2 = .ok child) ∨
      child_read pm col row level tid p.1 p.2 = .error .TileNotFoundErr)
    (hfail : child_read pm col row level tid ij.1 ij.2 = .error e)
    (hne : e ≠ .TileNotFoundErr) :
    generate_mipmap_tile pm col row level tid preblur = .error e := by
  have hg : gather_children pm col row level tid = .error e := by
    rw [gather_children_eq_foldlM, horder]
    apply foldlM_error_at
    · intro p hp s
      rcases hbefore p hp with ⟨child, hc⟩ | hc
      · exact ⟨_, read_child_ok pm _ col row level tid s child p.1 p.2 hc⟩
      · exact ⟨_, read_child_absent pm _ col row level tid s p.1 p.2 hc⟩
    · intro s
      exact read_child_error pm _ col row level tid s ij.1 ij.2 e hfail hne
  unfold generate_mipmap_tile
  rw [hg]

/-- C14 on a store whose second and third child reads fail: the run leaves with
the exception of the second read, `(1, 0)`. -/
theorem generate_mipmap_tile_propagates_witness :
    child_order = [(0, 0)] ++ (1, 0) :: [(0, 1), (1, 1)] ∧
    (∀ p ∈ [((0 : Int), (0 : Int))],
      (∃ child, child_read plate_io_error 0 0 0 7 p.1 p.2 = .ok child) ∨
      child_read plate_io_error 0 0 0 7 p.1 p.2 = .error .TileNotFoundErr) ∧
    child_read plate_io_error 0 0 0 7 1 0 = .error (.other "IOErr") ∧
    Exception.other "IOErr" ≠ .TileNotFoundErr ∧
    generate_mipmap_tile plate_io_error 0 0 0 7 true = .error (.other "IOErr") := by
  have hb : ∀ p ∈ [((0 : Int), (0 : Int))],
      (∃ child, child_read plate_io_error 0 0 0 7 p.1 p.2 = .ok child) ∨
      child_read plate_io_error 0 0 0 7 p.1 p.2 = .error .TileNotFoundErr := by
    intro p hp
    simp only [List.mem_singleton] at hp
    subst hp
    exact .inr rfl
  exact ⟨rfl, hb, rfl, by decide,
    generate_mipmap_tile_propagates plate_io_error 0 0 0 7 true [(0, 0)] [(0, 1), (1, 1)] (1, 0)
      (.other "IOErr") rfl hb rfl (by decide)⟩

theorem read_child_congr (pm pm' : PlateCarreePlateManager) (tile_size col row level : Int)
    (tid : Transaction) (i j : Int)
    (h : child_read pm col row level tid i j = child_read pm' col row level tid i j) :
    ∀ s, read_child pm tile_size col row level tid s i j
      = read_child pm' tile_size col row level tid s i j := by
  intro s
  unfold child_read at h
  unfold read_child
  simp only [h]

/-- C15: two stores with the same default tile size whose exact-transaction
reads of the four children `(2*col+i, 2*row+j, level+1)` (the `int` addresses
the loops compute) agree give the same outcome: the same exception, or the
same decision to write or skip and the same tile written to the same address
under the same transaction. -/
theorem generate_mipmap_tile_depends_on_children (pm pm' : PlateCarreePlateManager)
    (col row level : Int) (tid : Transaction) (preblur : Bool)
    (hT : pm.m_platefile.default_tile_size = pm'.m_platefile.default_tile_size)
    (hreads : ∀ i j : Int, (i = 0 ∨ i = 1) → (j = 0 ∨ j = 1) →
      child_read pm col row level tid i j = child_read pm' col row level tid i j) :
    generate_mipmap_tile pm col row level tid preblur
      = generate_mipmap_tile pm' col row level tid preblur := by
  have hg : gather_children pm col row level tid = gather_children pm' col row level tid := by
    unfold gather_children
    rw [hT]
    simp only [List.foldlM_cons, List.foldlM_nil,
      read_child_congr pm pm' _ col row level tid 0 0 (hreads 0 0 (.inl rfl) (.inl rfl)),
      read_child_congr pm pm' _ col row level tid 1 0 (hreads 1 0 (.inr rfl) (.inl rfl)),
      read_child_congr pm pm' _ col row level tid 0 1 (hreads 0 1 (.inl rfl) (.inr rfl)),
      read_child_congr pm pm' _ col row level tid 1 1 (hreads 1 1 (.inr rfl) (.inr rfl))]
  unfold generate_mipmap_tile
  rw [hg]

/-- C15 on two stores that differ at `(5, 5, 3)` and agree on the children of
`(0, 0, 0)`. -/
theorem generate_mipmap_tile_depends_on_children_witness :
    plate_one_child.m_platefile.default_tile_size
      = plate_one_child_more.m_platefile.default_tile_size ∧
    (∀ i j : Int, (i = 0 ∨ i = 1) → (j = 0 ∨ j = 1) →
      child_read plate_one_child 0 0 0 7 i j = child_read plate_one_child_more 0 0 0 7 i j) ∧
    plate_one_child.m_platefile.read 5 5 3 7 true
      ≠ plate_one_child_more.m_platefile.read 5 5 3 7 true ∧
    generate_mipmap_tile plate_one_child 0 0 0 7 false
      = generate_mipmap_tile plate_one_child_more 0 0 0 7 false := by
  have hr : ∀ i j : Int, (i = 0 ∨ i = 1) → (j = 0 ∨ j = 1) →
      child_read plate_one_child 0 0 0 7 i j = child_read plate_one_child_more 0 0 0 7 i j := by
    intro i j hi hj
    rcases hi with rfl | rfl <;> rcases hj with rfl | rfl <;> rfl
  refine ⟨rfl, hr, ?_, generate_mipmap_tile_depends_on_children plate_one_child
    plate_one_child_more 0 0 0 7 false rfl hr⟩
  intro h
  simp [plate_one_child, plate_one_child_more] at h

/-! ## Level offset, sign of the level, sample points -/

/-- The pixel count `2^k * 2^(c-8)` of the chosen level covers `n` exactly when
`k ≥ 8`, and the count one level below falls short of `n` exactly when `k ≤ 8`,
where `c` is the least exponent with `n ≤ 2^c`. -/
theorem cover_iff_offset (n c k : Nat) (hc : c = Nat.clog 2 n) (h8 : 8 ≤ c) :
    ((n : Int) ≤ 2 ^ k * 2 ^ (c - 8) ↔ 8 ≤ k) ∧
    (9 ≤ c → ((2 : Int) ^ k * 2 ^ (c - 9) < n ↔ k ≤ 8)) := by
  constructor
  · rw [← pow_add]
    have h := Nat.le_pow_iff_clog_le (by norm_num : 1 < 2) (x := n) (y := k + (c - 8))
    constructor
    · intro hle
      have : n ≤ 2 ^ (k + (c - 8)) := by exact_mod_cast hle
      have := h.mp this
      omega
    · intro hk
      have : n ≤ 2 ^ (k + (c - 8)) := h.mpr (by omega)
      exact_mod_cast this
  · intro h9
    rw [← pow_add]
    have h := Nat.pow_lt_iff_lt_clog (by norm_num : 1 < 2) (x := n) (y := k + (c - 9))
    constructor
    · intro hlt
      have : 2 ^ (k + (c - 9)) < n := by exact_mod_cast hlt
      have := h.mp this
      omega
    · intro hk
      have : 2 ^ (k + (c - 9)) < n := h.mpr (by omega)
      exact_mod_cast this

/-- C18 (as amended): the level offset does not follow the tile size: for every
store of default tile size `T = 2^k` and every working resolution `r` other
than `2^29`, the level `L` chosen by `transform_image` is ceil(log2(r)) - 8;
when `T * 2^L` fits the `int`, `georeference(L)` has `T * 2^L` pixels per axis,
and that is at least `r` exactly when `k ≥ 8`; when `L > 0` and `T * 2^(L-1)`
fits the `int`, `georeference(L-1)` has `T * 2^(L-1)` pixels per axis, and that
is fewer than `r` exactly when `k ≤ 8`. -/
theorem level_offset_fixed (lib : Cartography) (pm : PlateCarreePlateManager)
    (georef : GeoReference) (cols rows : Int) (k : Nat)
    (hT : pm.m_platefile.default_tile_size = 2 ^ k)
    (h29 : (transform_image lib pm georef cols rows).resolution ≠ 2 ^ 29) :
    (transform_image lib pm georef cols rows).level
      = ⌈Real.log (((transform_image lib pm georef cols rows).resolution : Int) : ℝ)
          / Real.log 2⌉ - 8 ∧
    (2 ^ k * 2 ^ (transform_image lib pm georef cols rows).level.toNat < (2 : Int) ^ 31 →
      georeference_resolution pm (transform_image lib pm georef cols rows).level
        = some (2 ^ k * 2 ^ (transform_image lib pm georef cols rows).level.toNat) ∧
      ((transform_image lib pm georef cols rows).resolution
          ≤ 2 ^ k * 2 ^ (transform_image lib pm georef cols rows).level.toNat ↔ 8 ≤ k)) ∧
    (0 < (transform_image lib pm georef cols rows).level →
      2 ^ k * 2 ^ ((transform_image lib pm georef cols rows).level - 1).toNat < (2 : Int) ^ 31 →
      georeference_resolution pm ((transform_image lib pm georef cols rows).level - 1)
        = some (2 ^ k * 2 ^ ((transform_image lib pm georef cols rows).level - 1).toNat) ∧
      (2 ^ k * 2 ^ ((transform_image lib pm georef cols rows).level - 1).toNat
          < (transform_image lib pm georef cols rows).resolution ↔ k ≤ 8)) := by
  have hr : 256 ≤ (transform_image lib pm georef cols rows).resolution :=
    resolution_loop_ge _
  have hlev : (transform_image lib pm georef cols rows).level
      = level_of_resolution (transform_image lib pm georef cols rows).resolution := rfl
  have hceil := ceil_log2_eq_ceil_log_div_log _ (le_trans (by norm_num) hr) h29
  obtain ⟨n, c, hn, hc, h8, hspec⟩ :=
    level_of_resolution_spec (transform_image lib pm georef cols rows).resolution hr h29
  have hTpos : 0 < pm.m_platefile.default_tile_size := by rw [hT]; positivity
  obtain ⟨hcov, hlow⟩ := cover_iff_offset n c k hc h8
  refine ⟨by rw [hceil]; rfl, ?_, ?_⟩
  · rw [hlev, hspec, hn, show ((c : Int) - 8).toNat = c - 8 by omega]
    intro hfit
    refine ⟨?_, hcov⟩
    have := georeference_resolution_in_range pm ((c : Int) - 8) (by omega) hTpos
      (by rw [hT, show ((c : Int) - 8).toNat = c - 8 by omega]; exact hfit)
    rw [this, hT, show ((c : Int) - 8).toNat = c - 8 by omega]
  · rw [hlev, hspec, hn]
    intro hpos
    have h9 : 9 ≤ c := by omega
    rw [show ((c : Int) - 8 - 1).toNat = c - 9 by omega]
    intro hfit
    refine ⟨?_, hlow h9⟩
    have := georeference_resolution_in_range pm ((c : Int) - 8 - 1) (by omega) hTpos
      (by rw [hT, show ((c : Int) - 8 - 1).toNat = c - 9 by omega]; exact hfit)
    rw [this, hT, show ((c : Int) - 8 - 1).toNat = c - 9 by omega]

/-- C18 on the store of tile size 256 = 2^8 and an estimator that answers 400:
level 1, with 512 pixels per axis at level 1 and 256 at level 0. -/
theorem level_offset_fixed_witness :
    plate256.m_platefile.default_tile_size = 2 ^ 8 ∧
    (transform_image cartography400 plate256 georef_east200 100 100).resolution = 400 ∧
    (transform_image cartography400 plate256 georef_east200 100 100).level = 1 ∧
    (1 : Int) = ⌈Real.log ((400 : Int) : ℝ) / Real.log 2⌉ - 8 ∧
    georeference_resolution plate256 1 = some 512 ∧ (400 : Int) ≤ 512 ∧
    georeference_resolution plate256 0 = some 256 ∧ (256 : Int) < 400 := by
  have hres : (transform_image cartography400 plate256 georef_east200 100 100).resolution
      = 400 := by decide
  have hlev : (transform_image cartography400 plate256 georef_east200 100 100).level = 1 := by
    show level_of_resolution
      (transform_image cartography400 plate256 georef_east200 100 100).resolution = 1
    rw [hres]
    unfold level_of_resolution
    rw [ceil_log2_eq 400 8 (by norm_num) (by norm_num) (by norm_num)]
    norm_num
  obtain ⟨h1, h2, h3⟩ := level_offset_fixed cartography400 plate256 georef_east200 100 100 8
    rfl (by rw [hres]; norm_num)
  rw [hlev, hres] at h1 h2 h3
  have h2' := h2 (by norm_num [Int.toNat])
  have h3' := h3 (by norm_num) (by norm_num [Int.toNat])
  refine ⟨rfl, hres, hlev, h1, ?_, by norm_num, ?_, by norm_num⟩
  · rw [h2'.1]; norm_num [Int.toNat]
  · have := h3'.1
    norm_num [Int.toNat] at this
    exact this

/-- C18 as stated fails: on a store of tile size 128 = 2^7 the working
resolution 256 gives level 0, not ceil(log2(256)) - 7 = 1, and
`georeference(0)` then has 128 pixels per axis, fewer than 256. -/
theorem level_offset_ignores_tile_size :
    plate128.m_platefile.default_tile_size = 2 ^ 7 ∧
    (transform_image affineCartography plate128 georef_east200 100 100).resolution = 256 ∧
    (transform_image affineCartography plate128 georef_east200 100 100).level = 0 ∧
    (transform_image affineCartography plate128 georef_east200 100 100).level
      ≠ ⌈Real.log (((transform_image affineCartography plate128 georef_east200 100 100).resolution
          : Int) : ℝ) / Real.log 2⌉ - 7 ∧
    georeference_resolution plate128 0 = some 128 ∧
    ¬ (256 : Int) ≤ 128 := by
  have hres : (transform_image affineCartography plate128 georef_east200 100 100).resolution
      = 256 := by decide
  have hlev : (transform_image affineCartography plate128 georef_east200 100 100).level = 0 := by
    show level_of_resolution
      (transform_image affineCartography plate128 georef_east200 100 100).resolution = 0
    rw [hres]
    unfold level_of_resolution
    rw [ceil_log2_eq 256 7 (by norm_num) (by norm_num) (by norm_num)]
    norm_num
  refine ⟨rfl, hres, hlev, ?_, by decide, by decide⟩
  rw [hlev, hres, ceil_log2_eq_ceil_log_div_log 256 (by norm_num) (by norm_num),
    ceil_log2_eq 256 7 (by norm_num) (by norm_num) (by norm_num)]
  norm_num

/-- C19: for every input image and every five resolution samples, of any sign,
the level chosen by `transform_image` is non-negative, so the shift
`1<<level` of `georeference(level)` is never undefined for a negative count. -/
theorem chosen_level_nonneg (lib : Cartography) (pm : PlateCarreePlateManager)
    (georef : GeoReference) (cols rows : Int) (s0 s1 s2 s3 s4 : Int) :
    0 ≤ choose_level [s0, s1, s2, s3, s4] ∧
    0 ≤ (transform_image lib pm georef cols rows).level ∧
    (shl32 1 (transform_image lib pm georef cols rows).level = none →
      32 ≤ (transform_image lib pm georef cols rows).level) := by
  have key : ∀ samples : List Int, 0 ≤ choose_level samples := by
    intro samples
    have h8 := ceil_log2_ge_8 _ (resolution_loop_ge samples)
    unfold choose_level level_of_resolution
    omega
  have hL : 0 ≤ (transform_image lib pm georef cols rows).level := key _
  refine ⟨key _, hL, ?_⟩
  intro hn
  by_contra hlt
  unfold shl32 at hn
  rw [if_pos ⟨hL, by omega⟩] at hn
  exact Option.noConfusion hn

/-- C20: for every image with `cols ≥ 1` and `rows ≥ 1` the five sample points
of `transform_image` are (cols/2, rows/2), (cols/2 + cols/4, rows/2),
(cols/2 - cols/4, rows/2), (cols/2, rows/2 + rows/4), (cols/2, rows/2 - rows/4)
with integer division, and each lies inside the image: x in [0, cols-1] and y
in [0, rows-1]. -/
theorem res_pixel_inside (cols rows : Int) (hc : 1 ≤ cols) (hr : 1 ≤ rows) :
    res_pixel cols rows =
      [ ⟨((cols / 2 : Int) : ℚ), ((rows / 2 : Int) : ℚ)⟩,
        ⟨((cols / 2 + cols / 4 : Int) : ℚ), ((rows / 2 : Int) : ℚ)⟩,
        ⟨((cols / 2 - cols / 4 : Int) : ℚ), ((rows / 2 : Int) : ℚ)⟩,
        ⟨((cols / 2 : Int) : ℚ), ((rows / 2 + rows / 4 : Int) : ℚ)⟩,
        ⟨((cols / 2 : Int) : ℚ), ((rows / 2 - rows / 4 : Int) : ℚ)⟩ ] ∧
    ∀ p ∈ res_pixel cols rows,
      0 ≤ p.x ∧ p.x ≤ ((cols - 1 : Int) : ℚ) ∧ 0 ≤ p.y ∧ p.y ≤ ((rows - 1 : Int) : ℚ) := by
  have e2 : ∀ a : Int, 0 ≤ a → a.tdiv 2 = a / 2 := fun a ha => Int.tdiv_eq_ediv ha (by norm_num)
  have e4 : ∀ a : Int, 0 ≤ a → a.tdiv 4 = a / 4 := fun a ha => Int.tdiv_eq_ediv ha (by norm_num)
  have hres : res_pixel cols rows =
      [ ⟨((cols / 2 : Int) : ℚ), ((rows / 2 : Int) : ℚ)⟩,
        ⟨((cols / 2 + cols / 4 : Int) : ℚ), ((rows / 2 : Int) : ℚ)⟩,
        ⟨((cols / 2 - cols / 4 : Int) : ℚ), ((rows / 2 : Int) : ℚ)⟩,
        ⟨((cols / 2 : Int) : ℚ), ((rows / 2 + rows / 4 : Int) : ℚ)⟩,
        ⟨((cols / 2 : Int) : ℚ), ((rows / 2 - rows / 4 : Int) : ℚ)⟩ ] := by
    unfold res_pixel
    rw [e2 cols (by omega), e4 cols (by omega), e2 rows (by omega), e4 rows (by omega)]
  refine ⟨hres, ?_⟩
  rw [hres]
  intro p hp
  simp only [List.mem_cons, List.mem_singleton, List.not_mem_nil, or_false] at hp
  have hx : ∀ a : Int, 0 ≤ a → a ≤ cols - 1 →
      (0 : ℚ) ≤ ((a : Int) : ℚ) ∧ ((a : Int) : ℚ) ≤ ((cols - 1 : Int) : ℚ) :=
    fun a h0 h1 => ⟨by exact_mod_cast h0, by exact_mod_cast h1⟩
  have hy : ∀ a : Int, 0 ≤ a → a ≤ rows - 1 →
      (0 : ℚ) ≤ ((a : Int) : ℚ) ∧ ((a : Int) : ℚ) ≤ ((rows - 1 : Int) : ℚ) :=
    fun a h0 h1 => ⟨by exact_mod_cast h0, by exact_mod_cast h1⟩
  have x0 := hx (cols / 2) (by omega) (by omega)
  have x1 := hx (cols / 2 + cols / 4) (by omega) (by omega)
  have x2 := hx (cols / 2 - cols / 4) (by omega) (by omega)
  have y0 := hy (rows / 2) (by omega) (by omega)
  have y1 := hy (rows / 2 + rows / 4) (by omega) (by omega)
  have y2 := hy (rows / 2 - rows / 4) (by omega) (by omega)
  rcases hp with rfl | rfl | rfl | rfl | rfl
  · exact ⟨x0.1, x0.2, y0.1, y0.2⟩
  · exact ⟨x1.1, x1.2, y0.1, y0.2⟩
  · exact ⟨x2.1, x2.2, y0.1, y0.2⟩
  · exact ⟨x0.1, x0.2, y1.1, y1.2⟩
  · exact ⟨x0.1, x0.2, y2.1, y2.2⟩

/-- C20 on an image of 5 × 1 pixels. -/
theorem res_pixel_inside_witness :
    (1 : Int) ≤ 5 ∧ (1 : Int) ≤ 1 ∧
    ∀ p ∈ res_pixel 5 1,
      0 ≤ p.x ∧ p.x ≤ ((5 - 1 : Int) : ℚ) ∧ 0 ≤ p.y ∧ p.y ≤ ((1 - 1 : Int) : ℚ) :=
  ⟨by decide, by decide, (res_pixel_inside 5 1 (by decide) (by decide)).2⟩

/-! ## Codec selection (`MemoryImageResource.cc`) -/

theorem token_sets_disjoint (ct : String) :
    ((ct = "jpg" ∨ ct = "jpeg" ∨ ct = "image/jpeg") → ¬ (ct = "png" ∨ ct = "image/png")) ∧
    ((ct = "jpg" ∨ ct = "jpeg" ∨ ct = "image/jpeg") →
      ¬ (ct = "tif" ∨ ct = "tiff" ∨ ct = "image/tiff")) ∧
    ((ct = "jpg" ∨ ct = "jpeg" ∨ ct = "image/jpeg") → ¬ (ct = "exr" ∨ ct = "image/exr")) ∧
    ((ct = "png" ∨ ct = "image/png") → ¬ (ct = "tif" ∨ ct = "tiff" ∨ ct = "image/tiff")) ∧
    ((ct = "png" ∨ ct = "image/png") → ¬ (ct = "exr" ∨ ct = "image/exr")) ∧
    ((ct = "tif" ∨ ct = "tiff" ∨ ct = "image/tiff") → ¬ (ct = "exr" ∨ ct = "image/exr")) := by
  refine ⟨?_, ?_, ?_, ?_, ?_, ?_⟩ <;> intro h <;> rcases h with rfl | rfl | rfl <;> decide

theorem open_resource_cases (cfg : BuildConfig) (s : String) (data : List Nat) (len : Nat) :
    SrcMemoryImageResource.open_resource cfg s data len =
      if cfg.VW_HAVE_PKG_JPEG = true ∧
          (clean_type s = "jpg" ∨ clean_type s = "jpeg" ∨ clean_type s = "image/jpeg") then
        .ok ⟨Codec.JPEG, data, len⟩
      else if cfg.VW_HAVE_PKG_PNG = true ∧
          (clean_type s = "png" ∨ clean_type s = "image/png") then
        .ok ⟨Codec.PNG, data, len⟩
      else if cfg.VW_HAVE_PKG_GDAL = true ∧
          (clean_type s = "tif" ∨ clean_type s = "tiff" ∨ clean_type s = "image/tiff") then
        .ok ⟨Codec.GDAL, data, len⟩
      else if cfg.VW_HAVE_PKG_OPENEXR = true ∧
          (clean_type s = "exr" ∨ clean_type s = "image/exr") then
        .ok ⟨Codec.OpenEXR, data, len⟩
      else .error ⟨"Unsupported file format: " ++ s⟩ := by
  unfold SrcMemoryImageResource.open_resource
  obtain ⟨d1, d2, d3, d4, d5, d6⟩ := token_sets_disjoint (clean_type s)
  generalize clean_type s = ct at *
  rcases cfg with ⟨a, b, c, d⟩
  by_cases hJ : (ct = "jpg" ∨ ct = "jpeg" ∨ ct = "image/jpeg")
  · have hP := d1 hJ
    have hG := d2 hJ
    have hE := d3 hJ
    cases a <;> cases b <;> cases c <;> cases d <;> simp [hJ, hP, hG, hE]
  · by_cases hP : (ct = "png" ∨ ct = "image/png")
    · have hG := d4 hP
      have hE := d5 hP
      cases a <;> cases b <;> cases c <;> cases d <;> simp [hJ, hP, hG, hE]
    · by_cases hG : (ct = "tif" ∨ ct = "tiff" ∨ ct = "image/tiff")
      · have hE := d6 hG
        cases a <;> cases b <;> cases c <;> cases d <;> simp [hJ, hP, hG, hE]
      · by_cases hE : (ct = "exr" ∨ ct = "image/exr")
        · cases a <;> cases b <;> cases c <;> cases d <;> simp [hJ, hP, hG, hE]
        · cases a <;> cases b <;> cases c <;> cases d <;> simp [hJ, hP, hG, hE]

theorem create_cases (cfg : BuildConfig) (s : String) (format : ImageFormat) :
    DstMemoryImageResource.create cfg s format =
      if cfg.VW_HAVE_PKG_JPEG = true ∧
          (clean_type s = "jpg" ∨ clean_type s = "jpeg" ∨ clean_type s = "image/jpeg") then
        .ok ⟨Codec.JPEG, format⟩
      else if cfg.VW_HAVE_PKG_PNG = true ∧
          (clean_type s = "png" ∨ clean_type s = "image/png") then
        .ok ⟨Codec.PNG, format⟩
      else if cfg.VW_HAVE_PKG_GDAL = true ∧
          (clean_type s = "tif" ∨ clean_type s = "tiff" ∨ clean_type s = "image/tiff") then
        .ok ⟨Codec.GDAL, format⟩
      else if cfg.VW_HAVE_PKG_OPENEXR = true ∧
          (clean_type s = "exr" ∨ clean_type s = "image/exr") then
        .ok ⟨Codec.OpenEXR, format⟩
      else .error ⟨"Unsupported file format: " ++ s⟩ := by
  unfold DstMemoryImageResource.create
  obtain ⟨d1, d2, d3, d4, d5, d6⟩ := token_sets_disjoint (clean_type s)
  generalize clean_type s = ct at *
  rcases cfg with ⟨a, b, c, d⟩
  by_cases hJ : (ct = "jpg" ∨ ct = "jpeg" ∨ ct = "image/jpeg")
  · have hP := d1 hJ
    have hG := d2 hJ
    have hE := d3 hJ
    cases a <;> cases b <;> cases c <;> cases d <;> simp [hJ, hP, hG, hE]
  · by_cases hP : (ct = "png" ∨ ct = "image/png")
    · have hG := d4 hP
      have hE := d5 hP
      cases a <;> cases b <;> cases c <;> cases d <;> simp [hJ, hP, hG, hE]
    · by_cases hG : (ct = "tif" ∨ ct = "tiff" ∨ ct = "image/tiff")
      · have hE := d6 hG
        cases a <;> cases b <;> cases c <;> cases d <;> simp [hJ, hP, hG, hE]
      · by_cases hE : (ct = "exr" ∨ ct = "image/exr")
        · cases a <;> cases b <;> cases c <;> cases d <;> simp [hJ, hP, hG, hE]
        · cases a <;> cases b <;> cases c <;> cases d <;> simp [hJ, hP, hG, hE]

/-- C16: for every type string and every set of codecs enabled at build time,
`open` and `create` select the JPEG codec iff JPEG is enabled and the cleaned
type is jpg, jpeg or image/jpeg; the PNG codec iff PNG is enabled and it is png
or image/png; the TIFF (GDAL) codec iff GDAL is enabled and it is tif, tiff or
image/tiff; the EXR codec iff OpenEXR is enabled and it is exr or image/exr;
and they throw the unsupported-format `NoImplErr` iff no enabled codec
matches. -/
theorem codec_selection (cfg : BuildConfig) (s : String) (data : List Nat) (len : Nat)
    (format : ImageFormat) :
    (SrcMemoryImageResource.open_resource cfg s data len = .ok ⟨Codec.JPEG, data, len⟩ ↔
      cfg.VW_HAVE_PKG_JPEG = true ∧
        (clean_type s = "jpg" ∨ clean_type s = "jpeg" ∨ clean_type s = "image/jpeg")) ∧
    (SrcMemoryImageResource.open_resource cfg s data len = .ok ⟨Codec.PNG, data, len⟩ ↔
      cfg.VW_HAVE_PKG_PNG = true ∧ (clean_type s = "png" ∨ clean_type s = "image/png")) ∧
    (SrcMemoryImageResource.open_resource cfg s data len = .ok ⟨Codec.GDAL, data, len⟩ ↔
      cfg.VW_HAVE_PKG_GDAL = true ∧
        (clean_type s = "tif" ∨ clean_type s = "tiff" ∨ clean_type s = "image/tiff")) ∧
    (SrcMemoryImageResource.open_resource cfg s data len = .ok ⟨Codec.OpenEXR, data, len⟩ ↔
      cfg.VW_HAVE_PKG_OPENEXR = true ∧ (clean_type s = "exr" ∨ clean_type s = "image/exr")) ∧
    (SrcMemoryImageResource.open_resource cfg s data len
        = .error ⟨"Unsupported file format: " ++ s⟩ ↔
      ¬ (cfg.VW_HAVE_PKG_JPEG = true ∧
          (clean_type s = "jpg" ∨ clean_type s = "jpeg" ∨ clean_type s = "image/jpeg")) ∧
      ¬ (cfg.VW_HAVE_PKG_PNG = true ∧ (clean_type s = "png" ∨ clean_type s = "image/png")) ∧
      ¬ (cfg.VW_HAVE_PKG_GDAL = true ∧
          (clean_type s = "tif" ∨ clean_type s = "tiff" ∨ clean_type s = "image/tiff")) ∧
      ¬ (cfg.VW_HAVE_PKG_OPENEXR = true ∧
          (clean_type s = "exr" ∨ clean_type s = "image/exr"))) ∧
    (DstMemoryImageResource.create cfg s format = .ok ⟨Codec.JPEG, format⟩ ↔
      cfg.VW_HAVE_PKG_JPEG = true ∧
        (clean_type s = "jpg" ∨ clean_type s = "jpeg" ∨ clean_type s = "image/jpeg")) ∧
    (DstMemoryImageResource.create cfg s format = .ok ⟨Codec.PNG, format⟩ ↔
      cfg.VW_HAVE_PKG_PNG = true ∧ (clean_type s = "png" ∨ clean_type s = "image/png")) ∧
    (DstMemoryImageResource.create cfg s format = .ok ⟨Codec.GDAL, format⟩ ↔
      cfg.VW_HAVE_PKG_GDAL = true ∧
        (clean_type s = "tif" ∨ clean_type s = "tiff" ∨ clean_type s = "image/tiff")) ∧
    (DstMemoryImageResource.create cfg s format = .ok ⟨Codec.OpenEXR, format⟩ ↔
      cfg.VW_HAVE_PKG_OPENEXR = true ∧ (clean_type s = "exr" ∨ clean_type s = "image/exr")) ∧
    (DstMemoryImageResource.create cfg s format
        = .error ⟨"Unsupported file format: " ++ s⟩ ↔
      ¬ (cfg.VW_HAVE_PKG_JPEG = true ∧
          (clean_type s = "jpg" ∨ clean_type s = "jpeg" ∨ clean_type s = "image/jpeg")) ∧
      ¬ (cfg.VW_HAVE_PKG_PNG = true ∧ (clean_type s = "png" ∨ clean_type s = "image/png")) ∧
      ¬ (cfg.VW_HAVE_PKG_GDAL = true ∧
          (clean_type s = "tif" ∨ clean_type s = "tiff" ∨ clean_type s = "image/tiff")) ∧
      ¬ (cfg.VW_HAVE_PKG_OPENEXR = true ∧
          (clean_type s = "exr" ∨ clean_type s = "image/exr"))) := by
  rw [open_resource_cases, create_cases]
  obtain ⟨d1, d2, d3, d4, d5, d6⟩ := token_sets_disjoint (clean_type s)
  generalize clean_type s = ct at *
  rcases cfg with ⟨a, b, c, d⟩
  by_cases hJ : (ct = "jpg" ∨ ct = "jpeg" ∨ ct = "image/jpeg")
  · have hP := d1 hJ
    have hG := d2 hJ
    have hE := d3 hJ
    cases a <;> cases b <;> cases c <;> cases d <;> simp [hJ, hP, hG, hE]
  · by_cases hP : (ct = "png" ∨ ct = "image/png")
    · have hG := d4 hP
      have hE := d5 hP
      cases a <;> cases b <;> cases c <;> cases d <;> simp [hJ, hP, hG, hE]
    · by_cases hG : (ct = "tif" ∨ ct = "tiff" ∨ ct = "image/tiff")
      · have hE := d6 hG
        cases a <;> cases b <;> cases c <;> cases d <;> simp [hJ, hP, hG, hE]
      · by_cases hE : (ct = "exr" ∨ ct = "image/exr")
        · cases a <;> cases b <;> cases c <;> cases d <;> simp [hJ, hP, hG, hE]
        · cases a <;> cases b <;> cases c <;> cases d <;> simp [hJ, hP, hG, hE]


theorem toNat_ofNat_small (n : Nat) (h : n < 55296) : (Char.ofNat n).toNat = n := by
  unfold Char.ofNat
  have hv : n.isValidChar := Or.inl h
  rw [dif_pos hv]
  simp [Char.ofNatAux, Char.toNat, UInt32.toNat]

theorem char_eq_of_toNat_eq (c d : Char) (h : c.toNat = d.toNat) : c = d := by
  rw [← Char.ofNat_toNat c, ← Char.ofNat_toNat d, h]

theorem toLower_toNat (c : Char) :
    c.toLower.toNat = if 65 ≤ c.toNat ∧ c.toNat ≤ 90 then c.toNat + 32 else c.toNat := by
  unfold Char.toLower
  simp only [ge_iff_le]
  split
  · rename_i h
    exact toNat_ofNat_small _ (by omega)
  · rfl

theorem toUpper_toNat (c : Char) :
    c.toUpper.toNat = if 97 ≤ c.toNat ∧ c.toNat ≤ 122 then c.toNat - 32 else c.toNat := by
  unfold Char.toUpper
  simp only [ge_iff_le]
  split
  · rename_i h
    exact toNat_ofNat_small _ (by omega)
  · rfl

theorem case_variant_toLower (c c' : Char) (h : case_variant c c') :
    c'.toLower = c.toLower := by
  apply char_eq_of_toNat_eq
  rcases h with rfl | rfl
  · rw [toLower_toNat c.toLower, toLower_toNat c]
    split_ifs <;> omega
  · rw [toLower_toNat c.toUpper, toUpper_toNat c, toLower_toNat c]
    split_ifs <;> omega

theorem case_variant_dot (c c' : Char) (h : case_variant c c') :
    is_any_of "." c' = is_any_of "." c := by
  have hdot : ('.' : Char).toNat = 46 := rfl
  have key : c' = '.' ↔ c = '.' := by
    constructor
    · intro h'
      apply char_eq_of_toNat_eq
      have h2 : c'.toNat = 46 := by rw [h']; rfl
      rcases h with rfl | rfl
      · rw [toLower_toNat] at h2
        rw [hdot]
        split_ifs at h2 <;> omega
      · rw [toUpper_toNat] at h2
        rw [hdot]
        split_ifs at h2 <;> omega
    · intro h'
      subst h'
      rcases h with rfl | rfl <;> rfl
  unfold is_any_of
  simp only [show ".".data = ['.'] from rfl, List.mem_singleton]
  exact decide_eq_decide.mpr key

theorem dropWhile_dots (n : Nat) (core : List Char) :
    (List.replicate n '.' ++ core).dropWhile (is_any_of ".")
      = core.dropWhile (is_any_of ".") := by
  induction n with
  | zero => rfl
  | succ k ih =>
    have hd : is_any_of "." '.' = true := by decide
    rw [List.replicate_succ, List.cons_append, List.dropWhile_cons, if_pos hd, ih]

theorem dropWhile_case_variant (l l' : List Char) (h : List.Forall₂ case_variant l l') :
    List.Forall₂ case_variant (l.dropWhile (is_any_of ".")) (l'.dropWhile (is_any_of ".")) := by
  induction h with
  | nil => exact .nil
  | @cons c c' t t' hc ht ih =>
    rw [List.dropWhile_cons, List.dropWhile_cons, case_variant_dot c c' hc]
    split
    · exact ih
    · exact .cons hc ht

theorem map_toLower_case_variant (l l' : List Char) (h : List.Forall₂ case_variant l l') :
    l'.map Char.toLower = l.map Char.toLower := by
  induction h with
  | nil => rfl
  | @cons c c' t t' hc _ ih =>
    rw [List.map_cons, List.map_cons, ih, case_variant_toLower c c' hc]

theorem clean_type_eq_of_same (s s' : String) (h : same_up_to_case_and_dots s s') :
    clean_type s' = clean_type s := by
  obtain ⟨n, n', core, core', hs, hs', hv⟩ := h
  unfold clean_type to_lower_copy trim_left_copy_if
  simp only [hs, hs', dropWhile_dots]
  rw [map_toLower_case_variant _ _ (dropWhile_case_variant _ _ hv)]

theorem open_resource_toOption (cfg : BuildConfig) (s s' : String) (data : List Nat) (len : Nat)
    (h : clean_type s' = clean_type s) :
    (SrcMemoryImageResource.open_resource cfg s' data len).toOption
      = (SrcMemoryImageResource.open_resource cfg s data len).toOption := by
  rw [open_resource_cases, open_resource_cases, h]
  split_ifs <;> rfl

theorem create_toOption (cfg : BuildConfig) (s s' : String) (format : ImageFormat)
    (h : clean_type s' = clean_type s) :
    (DstMemoryImageResource.create cfg s' format).toOption
      = (DstMemoryImageResource.create cfg s format).toOption := by
  rw [create_cases, create_cases, h]
  split_ifs <;> rfl

/-- C17: when `s'` comes from `s` by changing the case of ASCII letters and by
adding or removing leading dots, `clean_type(s') = clean_type(s)`, so `open`
and `create` select the same codec for both, or fail for both. -/
theorem codec_selection_ignores_case_and_dots (cfg : BuildConfig) (s s' : String)
    (data : List Nat) (len : Nat) (format : ImageFormat)
    (h : same_up_to_case_and_dots s s') :
    clean_type s' = clean_type s ∧
    (SrcMemoryImageResource.open_resource cfg s' data len).toOption
      = (SrcMemoryImageResource.open_resource cfg s data len).toOption ∧
    (DstMemoryImageResource.create cfg s' format).toOption
      = (DstMemoryImageResource.create cfg s format).toOption :=
  ⟨clean_type_eq_of_same s s' h,
   open_resource_toOption cfg s s' data len (clean_type_eq_of_same s s' h),
   create_toOption cfg s s' format (clean_type_eq_of_same s s' h)⟩

/-- C17 on the example of the claim: "..JPG" against "jpg". -/
theorem codec_selection_ignores_case_and_dots_witness :
    same_up_to_case_and_dots "jpg" "..JPG" ∧
    clean_type "..JPG" = clean_type "jpg" ∧
    (SrcMemoryImageResource.open_resource ⟨true, true, false, false⟩ "..JPG" [255, 216] 2).toOption
      = (SrcMemoryImageResource.open_resource ⟨true, true, false, false⟩ "jpg" [255, 216] 2).toOption ∧
    (DstMemoryImageResource.create ⟨true, true, false, false⟩ "..JPG" ⟨4, 4, 1⟩).toOption
      = (DstMemoryImageResource.create ⟨true, true, false, false⟩ "jpg" ⟨4, 4, 1⟩).toOption := by
  have h : same_up_to_case_and_dots "jpg" "..JPG" :=
    ⟨0, 2, ['j', 'p', 'g'], ['J', 'P', 'G'], rfl, rfl,
      .cons (.inr rfl) (.cons (.inr rfl) (.cons (.inr rfl) .nil))⟩
  exact ⟨h, codec_selection_ignores_case_and_dots ⟨true, true, false, false⟩ "jpg" "..JPG"
    [255, 216] 2 ⟨4, 4, 1⟩ h⟩

/-! ## The pixels of the synthesized tile -/

theorem read_child_step (pm : PlateCarreePlateManager) (col row level : Int)
    (tid : Transaction) (T : Int) (hT : 0 < T) (hT31 : T < 2 ^ 31)
    (i j : Int) (hi : i = 0 ∨ i = 1) (hj : j = 0 ∨ j = 1)
    (hpa : (∃ child, child_read pm col row level tid i j = .ok child) ∨
      child_read pm col row level tid i j = .error .TileNotFoundErr)
    (s : ImageView) :
    ∃ s', read_child pm T col row level tid s i j = .ok s' ∧
      s'.cols = s.cols ∧ s'.rows = s.rows ∧
      ∀ X Y : Nat, s'.pix X Y =
        if T * i ≤ (X : Int) ∧ (X : Int) < T * i + T ∧ T * j ≤ (Y : Int) ∧ (Y : Int) < T * j + T
        then
          (match child_read pm col row level tid i j with
           | .ok child => child.pix ((X : Int) - T * i).toNat ((Y : Int) - T * j).toNat
           | .error _ => s.pix X Y)
        else s.pix X Y := by
  have hwi : wrap32 (T * i) = T * i := by
    rcases hi with rfl | rfl
    · simp [wrap32]
    · rw [mul_one]; exact wrap32_of_range T (by omega) hT31
  have hwj : wrap32 (T * j) = T * j := by
    rcases hj with rfl | rfl
    · simp [wrap32]
    · rw [mul_one]; exact wrap32_of_range T (by omega) hT31
  rcases hpa with ⟨child, hc⟩ | hc
  · refine ⟨_, read_child_ok pm T col row level tid s child i j hc, rfl, rfl, ?_⟩
    intro X Y
    rw [hwi, hwj, hc]
    rfl
  · refine ⟨s, read_child_absent pm T col row level tid s i j hc, rfl, rfl, ?_⟩
    intro X Y
    rw [hc]
    simp

theorem div_mod_low (T : Int) (X : Nat) (h : (X : Int) < T) :
    (X : Int) / T = 0 ∧ ((X : Int) % T).toNat = X := by
  have hT : 0 < T := by omega
  have := (Int.ediv_emod_unique (a := (X : Int)) (q := 0) (r := (X : Int)) hT).mpr
    ⟨by ring, by omega, h⟩
  rw [this.1, this.2]
  exact ⟨rfl, by omega⟩

theorem div_mod_high (T : Int) (X : Nat) (h1 : T ≤ (X : Int)) (h2 : (X : Int) < 2 * T) :
    (X : Int) / T = 1 ∧ ((X : Int) % T).toNat = ((X : Int) - T).toNat := by
  have hT : 0 < T := by omega
  have := (Int.ediv_emod_unique (a := (X : Int)) (q := 1) (r := (X : Int) - T) hT).mpr
    ⟨by ring, by omega, by omega⟩
  rw [this.1, this.2]
  exact ⟨rfl, rfl⟩

theorem gather_children_pix (pm : PlateCarreePlateManager) (col row level : Int)
    (tid : Transaction) (hT : 0 < pm.m_platefile.default_tile_size)
    (hT31 : pm.m_platefile.default_tile_size < 2 ^ 31)
    (hpa : children_present_or_absent pm col row level tid = true) :
    ∃ super, gather_children pm col row level tid = .ok super ∧
      super.cols = (wrap32 (2 * pm.m_platefile.default_tile_size)).toNat ∧
      super.rows = (wrap32 (2 * pm.m_platefile.default_tile_size)).toNat ∧
      ∀ X Y : Nat, (X : Int) < 2 * pm.m_platefile.default_tile_size →
        (Y : Int) < 2 * pm.m_platefile.default_tile_size →
        super.pix X Y = quadrant_pixel pm col row level tid X Y := by
  rw [children_present_or_absent_iff] at hpa
  generalize hTd : pm.m_platefile.default_tile_size = T at *
  obtain ⟨s1, e1, c1, r1, p1⟩ := read_child_step pm col row level tid T hT hT31 0 0
    (.inl rfl) (.inl rfl) (hpa 0 0 (.inl rfl) (.inl rfl))
    (ImageView.make (wrap32 (2 * T)) (wrap32 (2 * T)))
  obtain ⟨s2, e2, c2, r2, p2⟩ := read_child_step pm col row level tid T hT hT31 1 0
    (.inr rfl) (.inl rfl) (hpa 1 0 (.inr rfl) (.inl rfl)) s1
  obtain ⟨s3, e3, c3, r3, p3⟩ := read_child_step pm col row level tid T hT hT31 0 1
    (.inl rfl) (.inr rfl) (hpa 0 1 (.inl rfl) (.inr rfl)) s2
  obtain ⟨s4, e4, c4, r4, p4⟩ := read_child_step pm col row level tid T hT hT31 1 1
    (.inr rfl) (.inr rfl) (hpa 1 1 (.inr rfl) (.inr rfl)) s3
  refine ⟨s4, ?_, by rw [c4, c3, c2, c1]; rfl, by rw [r4, r3, r2, r1]; rfl, ?_⟩
  · unfold gather_children
    simp only [hTd, List.foldlM_cons, List.foldlM_nil, e1, e2, e3, e4, bind, Except.bind, pure,
      Except.pure]
  · intro X Y hX hY
    have hmake : (ImageView.make (wrap32 (2 * T)) (wrap32 (2 * T))).pix X Y = 0 := rfl
    unfold quadrant_pixel
    rw [hTd, p4, p3, p2, p1, hmake]
    simp only [mul_zero, mul_one, zero_add, sub_zero]
    have hX0 : (0 : Int) ≤ X := Int.natCast_nonneg X
    have hY0 : (0 : Int) ≤ Y := Int.natCast_nonneg Y
    by_cases hx : (X : Int) < T <;> by_cases hy : (Y : Int) < T
    · obtain ⟨dx, mx⟩ := div_mod_low T X hx
      obtain ⟨dy, my⟩ := div_mod_low T Y hy
      have nx : ¬ T ≤ (X : Int) := by omega
      have ny : ¬ T ≤ (Y : Int) := by omega
      simp only [dx, dy, mx, my, hx, hy, nx, ny, hX0, hY0, true_and, false_and, and_self,
        and_false, if_true, if_false, Int.toNat_ofNat]
    · obtain ⟨dx, mx⟩ := div_mod_low T X hx
      obtain ⟨dy, my⟩ := div_mod_high T Y (by omega) hY
      have nx : ¬ T ≤ (X : Int) := by omega
      have ty : T ≤ (Y : Int) := by omega
      have ty2 : (Y : Int) < T + T := by omega
      simp only [dx, dy, mx, my, hx, hy, nx, ty, ty2, hX0, hY0, true_and, false_and, and_self,
        and_false, and_true, if_true, if_false, Int.toNat_ofNat]
    · obtain ⟨dx, mx⟩ := div_mod_high T X (by omega) hX
      obtain ⟨dy, my⟩ := div_mod_low T Y hy
      have tx : T ≤ (X : Int) := by omega
      have tx2 : (X : Int) < T + T := by omega
      have ny : ¬ T ≤ (Y : Int) := by omega
      simp only [dx, dy, mx, my, hx, hy, tx, tx2, ny, hX0, hY0, true_and, false_and, and_self,
        and_false, and_true, if_true, if_false, Int.toNat_ofNat]
    · obtain ⟨dx, mx⟩ := div_mod_high T X (by omega) hX
      obtain ⟨dy, my⟩ := div_mod_high T Y (by omega) hY
      have tx : T ≤ (X : Int) := by omega
      have tx2 : (X : Int) < T + T := by omega
      have ty : T ≤ (Y : Int) := by omega
      have ty2 : (Y : Int) < T + T := by omega
      simp only [dx, dy, mx, my, hx, hy, tx, tx2, ty, ty2, hX0, hY0, true_and, false_and,
        and_self, and_false, and_true, if_true, if_false, Int.toNat_ofNat]


theorem pixel_ext (p q : PixelGrayA) (hv : p.v = q.v) (ha : p.a = q.a) : p = q := by
  cases p; cases q; simp_all

theorem pixel_add_v (p q : PixelGrayA) : (p + q).v = p.v + q.v := rfl
theorem pixel_add_a (p q : PixelGrayA) : (p + q).a = p.a + q.a := rfl
theorem pixel_smul_v (k : ℚ) (p : PixelGrayA) : (k • p).v = k * p.v := rfl
theorem pixel_smul_a (k : ℚ) (p : PixelGrayA) : (k • p).a = k * p.a := rfl
theorem pixel_zero_v : (0 : PixelGrayA).v = 0 := rfl
theorem pixel_zero_a : (0 : PixelGrayA).a = 0 := rfl

/-- The blurred pixel at `(X, Y)`, away from the right and bottom border: the
mean of the 2 × 2 block with corner `(X, Y)`. -/
theorem blur_pix (img : ImageView) (X Y : Nat) (hX : X + 1 < img.cols) (hY : Y + 1 < img.rows) :
    (separable_convolution_filter img kernel kernel 1 1).pix X Y
      = ⟨(img.pix X Y).v / 4 + (img.pix (X + 1) Y).v / 4 + (img.pix X (Y + 1)).v / 4
          + (img.pix (X + 1) (Y + 1)).v / 4,
         (img.pix X Y).a / 4 + (img.pix (X + 1) Y).a / 4 + (img.pix X (Y + 1)).a / 4
          + (img.pix (X + 1) (Y + 1)).a / 4⟩ := by
  have e0 : ((X : Int) + 1 - ((0 : Nat) : Int)).toNat = X + 1 := by omega
  have e1 : ((X : Int) + 1 - ((1 : Nat) : Int)).toNat = X := by omega
  have f0 : ((Y : Int) + 1 - ((0 : Nat) : Int)).toNat = Y + 1 := by omega
  have f1 : ((Y : Int) + 1 - ((1 : Nat) : Int)).toNat = Y := by omega
  have m0 : min (X + 1) (img.cols - 1) = X + 1 := Nat.min_eq_left (by omega)
  have m1 : min X (img.cols - 1) = X := Nat.min_eq_left (by omega)
  have n0 : min (Y + 1) (img.rows - 1) = Y + 1 := Nat.min_eq_left (by omega)
  have n1 : min Y (img.rows - 1) = Y := Nat.min_eq_left (by omega)
  simp only [separable_convolution_filter, ConstantEdgeExtension, kernel, List.enum_cons,
    List.enumFrom_cons, List.enumFrom_nil, List.enum_nil, List.map_cons, List.map_nil,
    List.sum_cons, List.sum_nil, zero_add, e0, e1, f0, f1, m0, m1, n0, n1]
  apply pixel_ext
  · simp only [pixel_add_v, pixel_smul_v, pixel_zero_v]; ring
  · simp only [pixel_add_a, pixel_smul_a, pixel_zero_a]; ring


/-- Where a pixel of the buffer comes from: `(X, Y)` below `2T` lies in one
quadrant `(i, j)`, at offset `(x, y)` below `T` in it. -/
theorem quadrant_pixel_cases (pm : PlateCarreePlateManager) (col row level : Int)
    (tid : Transaction) (hT : 0 < pm.m_platefile.default_tile_size) (X Y : Nat)
    (hX : (X : Int) < 2 * pm.m_platefile.default_tile_size)
    (hY : (Y : Int) < 2 * pm.m_platefile.default_tile_size) :
    ∃ i j : Int, (i = 0 ∨ i = 1) ∧ (j = 0 ∨ j = 1) ∧ ∃ x y : Nat,
      (x : Int) < pm.m_platefile.default_tile_size ∧
      (y : Int) < pm.m_platefile.default_tile_size ∧
      (X : Int) = pm.m_platefile.default_tile_size * i + x ∧
      (Y : Int) = pm.m_platefile.default_tile_size * j + y ∧
      quadrant_pixel pm col row level tid X Y =
        (match child_read pm col row level tid i j with
         | .ok child => child.pix x y
         | .error _ => 0) := by
  unfold quadrant_pixel
  generalize pm.m_platefile.default_tile_size = T at *
  have hx : ∃ i : Int, (i = 0 ∨ i = 1) ∧ ∃ x : Nat, (x : Int) < T ∧ (X : Int) = T * i + x ∧
      (X : Int) / T = i ∧ ((X : Int) % T).toNat = x := by
    by_cases h : (X : Int) < T
    · obtain ⟨d, m⟩ := div_mod_low T X h
      exact ⟨0, .inl rfl, X, h, by ring, d, m⟩
    · obtain ⟨d, m⟩ := div_mod_high T X (by omega) hX
      exact ⟨1, .inr rfl, ((X : Int) - T).toNat, by omega, by omega, d, m⟩
  have hy : ∃ j : Int, (j = 0 ∨ j = 1) ∧ ∃ y : Nat, (y : Int) < T ∧ (Y : Int) = T * j + y ∧
      (Y : Int) / T = j ∧ ((Y : Int) % T).toNat = y := by
    by_cases h : (Y : Int) < T
    · obtain ⟨d, m⟩ := div_mod_low T Y h
      exact ⟨0, .inl rfl, Y, h, by ring, d, m⟩
    · obtain ⟨d, m⟩ := div_mod_high T Y (by omega) hY
      exact ⟨1, .inr rfl, ((Y : Int) - T).toNat, by omega, by omega, d, m⟩
  obtain ⟨i, hi, x, hxT, hXe, hdx, hmx⟩ := hx
  obtain ⟨j, hj, y, hyT, hYe, hdy, hmy⟩ := hy
  refine ⟨i, j, hi, hj, x, y, hxT, hyT, hXe, hYe, ?_⟩
  rw [hdx, hdy, hmx, hmy]

/-- With `2T` inside the `int` range the buffer and the tile have their
intended sizes, `2T × 2T` and `T × T`. -/
theorem gather_children_fit (pm : PlateCarreePlateManager) (col row level : Int)
    (tid : Transaction) (hT : 0 < pm.m_platefile.default_tile_size)
    (hfit : 2 * pm.m_platefile.default_tile_size < 2 ^ 31)
    (hpa : children_present_or_absent pm col row level tid = true) :
    ∃ super, gather_children pm col row level tid = .ok super ∧
      super.cols = 2 * pm.m_platefile.default_tile_size.toNat ∧
      super.rows = 2 * pm.m_platefile.default_tile_size.toNat ∧
      (∀ preblur, (downsample super preblur).cols = pm.m_platefile.default_tile_size.toNat ∧
        (downsample super preblur).rows = pm.m_platefile.default_tile_size.toNat) ∧
      ∀ X Y : Nat, (X : Int) < 2 * pm.m_platefile.default_tile_size →
        (Y : Int) < 2 * pm.m_platefile.default_tile_size →
        super.pix X Y = quadrant_pixel pm col row level tid X Y := by
  obtain ⟨super, hs, hc, hr, hp⟩ := gather_children_pix pm col row level tid hT (by omega) hpa
  rw [wrap32_of_range _ (by omega) hfit] at hc hr
  have hc' : super.cols = 2 * pm.m_platefile.default_tile_size.toNat := by omega
  have hr' : super.rows = 2 * pm.m_platefile.default_tile_size.toNat := by omega
  refine ⟨super, hs, hc', hr', ?_, hp⟩
  intro preblur
  cases preblur
  · simp only [downsample, subsample, separable_convolution_filter, hc', hr',
      Bool.false_eq_true, if_false]
    omega
  · simp only [downsample, subsample, separable_convolution_filter, hc', hr', if_true]
    omega

/-- How the method ends once the loops have ended with the buffer `super`. -/
theorem generate_mipmap_tile_run_of_gather (pm : PlateCarreePlateManager) (col row level : Int)
    (tid : Transaction) (preblur : Bool) (super : ImageView)
    (hs : gather_children pm col row level tid = .ok super) :
    generate_mipmap_tile_run pm col row level tid preblur
      = if is_transparent (downsample super preblur) then .ok ()
        else pm.m_platefile.write_update (downsample super preblur) col row level tid := by
  unfold generate_mipmap_tile_run
  rw [hs]
  by_cases ht : is_transparent (downsample super preblur) = true <;> simp [ht]

/-- The method ends as the `write_update` calls it issues end, in order, and
with the exception of a child read when it issues none for that reason. -/
theorem generate_mipmap_tile_run_eq_calls (pm : PlateCarreePlateManager) (col row level : Int)
    (tid : Transaction) (preblur : Bool) :
    generate_mipmap_tile_run pm col row level tid preblur
      = match generate_mipmap_tile pm col row level tid preblur with
        | .error e => .error e
        | .ok [] => .ok ()
        | .ok (w :: _) =>
          pm.m_platefile.write_update w.tile w.col w.row w.level w.transaction_id := by
  unfold generate_mipmap_tile_run generate_mipmap_tile
  cases hg : gather_children pm col row level tid with
  | error e => rfl
  | ok super =>
    by_cases ht : is_transparent (downsample super preblur) = true <;> simp [ht]

/-- C9 (as amended): for a tile size `T > 0` with `2T < 2^31`, when each of the
four child reads succeeds or throws `TileNotFoundErr`, the loops of
`generate_mipmap_tile` end with a buffer, for every address, transaction and
preblur flag, and the downsampled tile has `T × T` pixels; the method issues
exactly one `write_update` call, of that tile to `(col, row, level)` under the
given transaction, when the tile is not fully transparent, and none otherwise;
it ends normally when it issues no call, and as the `write_update` call ends
when it issues one: normally, or with the exception the call throws. -/
theorem generate_mipmap_tile_missing_children (pm : PlateCarreePlateManager)
    (col row level : Int) (tid : Transaction) (preblur : Bool)
    (hT : 0 < pm.m_platefile.default_tile_size)
    (hfit : 2 * pm.m_platefile.default_tile_size < 2 ^ 31)
    (h : children_present_or_absent pm col row level tid = true) :
    ∃ super, gather_children pm col row level tid = .ok super ∧
      (downsample super preblur).cols = pm.m_platefile.default_tile_size.toNat ∧
      (downsample super preblur).rows = pm.m_platefile.default_tile_size.toNat ∧
      generate_mipmap_tile pm col row level tid preblur
        = .ok (if is_transparent (downsample super preblur) then []
               else [⟨downsample super preblur, col, row, level, tid⟩]) ∧
      generate_mipmap_tile_run pm col row level tid preblur
        = (if is_transparent (downsample super preblur) then .ok ()
           else pm.m_platefile.write_update (downsample super preblur) col row level tid) := by
  obtain ⟨super, hs, -, -, hd, -⟩ := gather_children_fit pm col row level tid hT hfit h
  exact ⟨super, hs, (hd preblur).1, (hd preblur).2,
    generate_mipmap_tile_of_gather pm col row level tid preblur super hs,
    generate_mipmap_tile_run_of_gather pm col row level tid preblur super hs⟩

/-- C9 on a store that holds one opaque child out of four and accepts every
write: the downsampled tile is not transparent, it is written once, and the
method ends normally. -/
theorem generate_mipmap_tile_missing_children_witness :
    0 < plate_one_child.m_platefile.default_tile_size ∧
    2 * plate_one_child.m_platefile.default_tile_size < 2 ^ 31 ∧
    children_present_or_absent plate_one_child 0 0 0 7 = true ∧
    ∃ super, gather_children plate_one_child 0 0 0 7 = .ok super ∧
      (downsample super false).cols = 2 ∧ (downsample super false).rows = 2 ∧
      is_transparent (downsample super false) = false ∧
      generate_mipmap_tile plate_one_child 0 0 0 7 false
        = .ok [⟨downsample super false, 0, 0, 0, 7⟩] ∧
      generate_mipmap_tile_run plate_one_child 0 0 0 7 false = .ok () := by
  obtain ⟨super, hs, hc, hr, hg, hrun⟩ :=
    generate_mipmap_tile_missing_children plate_one_child 0 0 0 7 false (by decide) (by decide)
      (by decide)
  have hS : gather_children plate_one_child 0 0 0 7
      = .ok (crop_assign (ImageView.make 4 4) 0 0 2 2 opaque_tile) := rfl
  have ht : is_transparent (downsample super false) = false := by
    rw [hS] at hs
    injection hs with hs
    subst hs
    decide
  rw [ht] at hg hrun
  exact ⟨by decide, by decide, by decide, super, hs, hc, hr, ht, hg, hrun⟩

/-- C9 as stated fails: on a store that holds one opaque child out of four, so
that every child read succeeds or throws `TileNotFoundErr`, and whose
`write_update` throws an I/O error, the method issues its one write and ends
with that error, not normally. -/
theorem write_failure_leaves_method :
    children_present_or_absent plate_write_fails 0 0 0 7 = true ∧
    (∃ tile, generate_mipmap_tile plate_write_fails 0 0 0 7 false = .ok [⟨tile, 0, 0, 0, 7⟩]) ∧
    generate_mipmap_tile_run plate_write_fails 0 0 0 7 false = .error (.other "IOErr") := by
  have hS : gather_children plate_write_fails 0 0 0 7
      = .ok (crop_assign (ImageView.make 4 4) 0 0 2 2 opaque_tile) := rfl
  have ht : is_transparent (downsample (crop_assign (ImageView.make 4 4) 0 0 2 2 opaque_tile)
      false) = false := by decide
  refine ⟨by decide,
    ⟨downsample (crop_assign (ImageView.make 4 4) 0 0 2 2 opaque_tile) false, ?_⟩, ?_⟩
  · rw [generate_mipmap_tile_of_gather _ _ _ _ _ _ _ hS, ht]; rfl
  · rw [generate_mipmap_tile_run_of_gather _ _ _ _ _ _ _ hS, ht]; rfl

/-- C13 (as amended): with `preblur = false` and a tile size `T > 0` whose
double fits an `int` (`2T < 2^31`), the children being present or absent, the
synthesized tile has `T × T` pixels; for `0 ≤ x, y < T` its pixel `(x, y)` is
pixel `(2x mod T, 2y mod T)` of the child in quadrant
`(floor(2x/T), floor(2y/T))` when that child is present and the zero pixel when
it is absent; and with only child `(0,0)` present a non-zero pixel `(x, y)` of
the result lies in its top-left quadrant, `2x < T` and `2y < T`. -/
theorem decimated_tile_pixels (pm : PlateCarreePlateManager) (col row level : Int)
    (tid : Transaction) (hT : 0 < pm.m_platefile.default_tile_size)
    (hfit : 2 * pm.m_platefile.default_tile_size < 2 ^ 31)
    (hpa : children_present_or_absent pm col row level tid = true) :
    ∃ super, gather_children pm col row level tid = .ok super ∧
      generate_mipmap_tile pm col row level tid false
        = .ok (if is_transparent (downsample super false) then []
               else [⟨downsample super false, col, row, level, tid⟩]) ∧
      (downsample super false).cols = pm.m_platefile.default_tile_size.toNat ∧
      (downsample super false).rows = pm.m_platefile.default_tile_size.toNat ∧
      (∀ x y : Nat, (x : Int) < pm.m_platefile.default_tile_size →
        (y : Int) < pm.m_platefile.default_tile_size →
        (downsample super false).pix x y = quadrant_pixel pm col row level tid (2 * x) (2 * y)) ∧
      ((∀ i j : Int, (i = 0 ∨ i = 1) → (j = 0 ∨ j = 1) → ¬ (i = 0 ∧ j = 0) →
          child_read pm col row level tid i j = .error .TileNotFoundErr) →
        ∀ x y : Nat, (x : Int) < pm.m_platefile.default_tile_size →
          (y : Int) < pm.m_platefile.default_tile_size →
          (downsample super false).pix x y ≠ 0 →
          2 * (x : Int) < pm.m_platefile.default_tile_size ∧
          2 * (y : Int) < pm.m_platefile.default_tile_size) := by
  obtain ⟨super, hs, hc, hr, hd, hp⟩ := gather_children_fit pm col row level tid hT hfit hpa
  have hpix : ∀ x y : Nat, (x : Int) < pm.m_platefile.default_tile_size →
      (y : Int) < pm.m_platefile.default_tile_size →
      (downsample super false).pix x y
        = quadrant_pixel pm col row level tid (2 * x) (2 * y) := by
    intro x y hx hy
    have := hp (2 * x) (2 * y) (by push_cast; omega) (by push_cast; omega)
    rw [← this]
    rfl
  refine ⟨super, hs, generate_mipmap_tile_of_gather pm col row level tid false super hs,
    (hd false).1, (hd false).2, hpix, ?_⟩
  intro habs x y hx hy hne
  rw [hpix x y hx hy] at hne
  obtain ⟨i, j, hi, hj, x', y', hx', hy', hX, hY, hq⟩ :=
    quadrant_pixel_cases pm col row level tid hT (2 * x) (2 * y)
      (by push_cast; omega) (by push_cast; omega)
  rw [hq] at hne
  by_cases h00 : i = 0 ∧ j = 0
  · obtain ⟨rfl, rfl⟩ := h00
    push_cast at hX hY
    constructor <;> omega
  · rw [habs i j hi hj h00] at hne
    exact absurd rfl hne


/-- C13 on the store of tile size 2 that holds one opaque child. -/
theorem decimated_tile_pixels_witness :
    0 < plate_one_child.m_platefile.default_tile_size ∧
    2 * plate_one_child.m_platefile.default_tile_size < 2 ^ 31 ∧
    children_present_or_absent plate_one_child 0 0 0 7 = true ∧
    ∃ super, gather_children plate_one_child 0 0 0 7 = .ok super ∧
      generate_mipmap_tile plate_one_child 0 0 0 7 false
        = .ok (if is_transparent (downsample super false) then []
               else [⟨downsample super false, 0, 0, 0, 7⟩]) ∧
      (downsample super false).cols = plate_one_child.m_platefile.default_tile_size.toNat ∧
      (downsample super false).rows = plate_one_child.m_platefile.default_tile_size.toNat ∧
      (∀ x y : Nat, (x : Int) < plate_one_child.m_platefile.default_tile_size →
        (y : Int) < plate_one_child.m_platefile.default_tile_size →
        (downsample super false).pix x y = quadrant_pixel plate_one_child 0 0 0 7 (2 * x) (2 * y)) ∧
      ((∀ i j : Int, (i = 0 ∨ i = 1) → (j = 0 ∨ j = 1) → ¬ (i = 0 ∧ j = 0) →
          child_read plate_one_child 0 0 0 7 i j = .error .TileNotFoundErr) →
        ∀ x y : Nat, (x : Int) < plate_one_child.m_platefile.default_tile_size →
          (y : Int) < plate_one_child.m_platefile.default_tile_size →
          (downsample super false).pix x y ≠ 0 →
          2 * (x : Int) < plate_one_child.m_platefile.default_tile_size ∧
          2 * (y : Int) < plate_one_child.m_platefile.default_tile_size) :=
  ⟨by decide, by decide, by decide,
    decimated_tile_pixels plate_one_child 0 0 0 7 (by decide) (by decide) (by decide)⟩

/-- C13 as stated fails: with tile size 2^30 the `int` product `2*tile_size`
wraps to -2^31, the buffer `super` is empty and the synthesized tile has 0
columns, not 2^30. -/
theorem decimated_tile_overflow :
    plate_huge.m_platefile.default_tile_size = 2 ^ 30 ∧
    gather_children plate_huge 0 0 0 7
      = .ok (ImageView.make (-2147483648) (-2147483648)) ∧
    (downsample (ImageView.make (-2147483648) (-2147483648)) false).cols = 0 ∧
    ((downsample (ImageView.make (-2147483648) (-2147483648)) false).cols : Int)
      ≠ plate_huge.m_platefile.default_tile_size :=
  ⟨rfl, rfl, rfl, by decide⟩

theorem quadrant_pixel_uniform (pm : PlateCarreePlateManager) (col row level : Int)
    (tid : Transaction) (v : PixelGrayA) (hT : 0 < pm.m_platefile.default_tile_size)
    (hall : ∀ i j : Int, (i = 0 ∨ i = 1) → (j = 0 ∨ j = 1) →
      ∃ child, child_read pm col row level tid i j = .ok child ∧
        ∀ x y : Nat, (x : Int) < pm.m_platefile.default_tile_size →
          (y : Int) < pm.m_platefile.default_tile_size → child.pix x y = v)
    (X Y : Nat) (hX : (X : Int) < 2 * pm.m_platefile.default_tile_size)
    (hY : (Y : Int) < 2 * pm.m_platefile.default_tile_size) :
    quadrant_pixel pm col row level tid X Y = v := by
  obtain ⟨i, j, hi, hj, x, y, hx, hy, -, -, hq⟩ :=
    quadrant_pixel_cases pm col row level tid hT X Y hX hY
  obtain ⟨child, hc, hv⟩ := hall i j hi hj
  rw [hq, hc]
  exact hv x y hx hy

theorem all_present_of_all (pm : PlateCarreePlateManager) (col row level : Int)
    (tid : Transaction) (P : ImageView → Prop)
    (hall : ∀ i j : Int, (i = 0 ∨ i = 1) → (j = 0 ∨ j = 1) →
      ∃ child, child_read pm col row level tid i j = .ok child ∧ P child) :
    children_present_or_absent pm col row level tid = true := by
  rw [children_present_or_absent_iff]
  intro i j hi hj
  obtain ⟨child, hc, -⟩ := hall i j hi hj
  exact .inl ⟨child, hc⟩

/-- C12: for every pixel value `v` and both values of `preblur`, when all four
children are present and each is a uniform tile of value `v` (tile size a
positive `int`), every pixel of the synthesized tile is `v`, and the run ends
with that tile as its only write unless it is transparent; when `2T` fits an
`int` the tile has `T × T` pixels and, `v` having non-zero alpha, it is
written. -/
theorem uniform_children_give_uniform_tile (pm : PlateCarreePlateManager)
    (col row level : Int) (tid : Transaction) (preblur : Bool) (v : PixelGrayA)
    (hT : 0 < pm.m_platefile.default_tile_size)
    (hint : pm.m_platefile.default_tile_size < 2 ^ 31)
    (hall : ∀ i j : Int, (i = 0 ∨ i = 1) → (j = 0 ∨ j = 1) →
      ∃ child, child_read pm col row level tid i j = .ok child ∧
        ∀ x y : Nat, (x : Int) < pm.m_platefile.default_tile_size →
          (y : Int) < pm.m_platefile.default_tile_size → child.pix x y = v) :
    ∃ super, gather_children pm col row level tid = .ok super ∧
      generate_mipmap_tile pm col row level tid preblur
        = .ok (if is_transparent (downsample super preblur) then []
               else [⟨downsample super preblur, col, row, level, tid⟩]) ∧
      (∀ x y : Nat, x < (downsample super preblur).cols → y < (downsample super preblur).rows →
        (downsample super preblur).pix x y = v) ∧
      (2 * pm.m_platefile.default_tile_size < 2 ^ 31 →
        (downsample super preblur).cols = pm.m_platefile.default_tile_size.toNat ∧
        (downsample super preblur).rows = pm.m_platefile.default_tile_size.toNat ∧
        (v.a ≠ 0 → is_transparent (downsample super preblur) = false)) := by
  have hpa := all_present_of_all pm col row level tid _ hall
  obtain ⟨super, hs, hc, hr, hp⟩ := gather_children_pix pm col row level tid hT hint hpa
  have hv : ∀ X Y : Nat, (X : Int) < 2 * pm.m_platefile.default_tile_size →
      (Y : Int) < 2 * pm.m_platefile.default_tile_size → super.pix X Y = v := by
    intro X Y hX hY
    rw [hp X Y hX hY]
    exact quadrant_pixel_uniform pm col row level tid v hT hall X Y hX hY
  have hdims : (downsample super preblur).cols = (super.cols + 1) / 2 ∧
      (downsample super preblur).rows = (super.rows + 1) / 2 := by
    cases preblur <;> exact ⟨rfl, rfl⟩
  have huni : ∀ x y : Nat, x < (downsample super preblur).cols →
      y < (downsample super preblur).rows → (downsample super preblur).pix x y = v := by
    intro x y hx hy
    rw [hdims.1] at hx
    rw [hdims.2] at hy
    by_cases hfit : 2 * pm.m_platefile.default_tile_size < 2 ^ 31
    · rw [wrap32_of_range _ (by omega) hfit] at hc hr
      cases preblur
      · exact hv (2 * x) (2 * y) (by push_cast; omega) (by push_cast; omega)
      · show (separable_convolution_filter super kernel kernel 1 1).pix (2 * x) (2 * y) = v
        rw [blur_pix super (2 * x) (2 * y) (by omega) (by omega),
          hv (2 * x) (2 * y) (by push_cast; omega) (by push_cast; omega),
          hv (2 * x + 1) (2 * y) (by push_cast; omega) (by push_cast; omega),
          hv (2 * x) (2 * y + 1) (by push_cast; omega) (by push_cast; omega),
          hv (2 * x + 1) (2 * y + 1) (by push_cast; omega) (by push_cast; omega)]
        apply pixel_ext <;> simp only <;> ring
    · exfalso
      have hw : wrap32 (2 * pm.m_platefile.default_tile_size) < 0 := by
        unfold wrap32; omega
      omega
  refine ⟨super, hs, generate_mipmap_tile_of_gather pm col row level tid preblur super hs,
    huni, ?_⟩
  intro hfit
  rw [wrap32_of_range _ (by omega) hfit] at hc hr
  have hcols : (downsample super preblur).cols = pm.m_platefile.default_tile_size.toNat := by
    rw [hdims.1]; omega
  have hrows : (downsample super preblur).rows = pm.m_platefile.default_tile_size.toNat := by
    rw [hdims.2]; omega
  refine ⟨hcols, hrows, ?_⟩
  intro ha
  rw [Bool.eq_false_iff]
  intro ht
  rw [is_transparent_iff] at ht
  have h0 := ht 0 0 (by omega) (by omega)
  rw [huni 0 0 (by omega) (by omega)] at h0
  exact ha h0


/-- C12, scenarios 3 and 4 of the spec with the blur on: four children of
uniform opaque gray 100 give one write of a 2 × 2 tile of uniform opaque gray
100. -/
theorem uniform_children_give_uniform_tile_witness :
    0 < plate_four_uniform.m_platefile.default_tile_size ∧
    plate_four_uniform.m_platefile.default_tile_size < 2 ^ 31 ∧
    (∀ i j : Int, (i = 0 ∨ i = 1) → (j = 0 ∨ j = 1) →
      ∃ child, child_read plate_four_uniform 0 0 0 7 i j = .ok child ∧
        ∀ x y : Nat, (x : Int) < plate_four_uniform.m_platefile.default_tile_size →
          (y : Int) < plate_four_uniform.m_platefile.default_tile_size →
          child.pix x y = ⟨100, 255⟩) ∧
    ∃ super, gather_children plate_four_uniform 0 0 0 7 = .ok super ∧
      generate_mipmap_tile plate_four_uniform 0 0 0 7 true
        = .ok [⟨downsample super true, 0, 0, 0, 7⟩] ∧
      (downsample super true).cols = 2 ∧ (downsample super true).rows = 2 ∧
      (∀ x y : Nat, x < 2 → y < 2 → (downsample super true).pix x y = ⟨100, 255⟩) := by
  have hall : ∀ i j : Int, (i = 0 ∨ i = 1) → (j = 0 ∨ j = 1) →
      ∃ child, child_read plate_four_uniform 0 0 0 7 i j = .ok child ∧
        ∀ x y : Nat, (x : Int) < plate_four_uniform.m_platefile.default_tile_size →
          (y : Int) < plate_four_uniform.m_platefile.default_tile_size →
          child.pix x y = ⟨100, 255⟩ := by
    intro i j hi hj
    rcases hi with rfl | rfl <;> rcases hj with rfl | rfl <;>
      exact ⟨opaque_tile, rfl, fun _ _ _ _ => rfl⟩
  obtain ⟨super, hs, hg, hu, hfit⟩ := uniform_children_give_uniform_tile plate_four_uniform
    0 0 0 7 true ⟨100, 255⟩ (by decide) (by decide) hall
  obtain ⟨hc, hr, ht⟩ := hfit (by decide)
  have ht' := ht (by norm_num)
  rw [ht'] at hg
  refine ⟨by decide, by decide, hall, super, hs, hg, hc, hr, ?_⟩
  intro x y hx hy
  exact hu x y (by rw [hc]; exact hx) (by rw [hr]; exact hy)

/-- The alpha of a pixel of the blurred and subsampled tile: the mean of the
alphas of its 2 × 2 block of the buffer. -/
theorem downsample_blur_alpha (img : ImageView) (x y : Nat) (hX : 2 * x + 1 < img.cols)
    (hY : 2 * y + 1 < img.rows) :
    ((downsample img true).pix x y).a
      = (img.pix (2 * x) (2 * y)).a / 4 + (img.pix (2 * x + 1) (2 * y)).a / 4
        + (img.pix (2 * x) (2 * y + 1)).a / 4 + (img.pix (2 * x + 1) (2 * y + 1)).a / 4 := by
  have hb : (downsample img true).pix x y
      = (separable_convolution_filter img kernel kernel 1 1).pix (2 * x) (2 * y) := rfl
  rw [hb, blur_pix img _ _ hX hY]

/-- C11 as stated fails for either flag.  Four children are present, each with
the one non-transparent pixel `(1, 1)`: with `preblur = false` the decimation
keeps the even coordinates only, the synthesized tile is transparent and
nothing is written.  Four children are present, each with alphas 1 and -1 in
its first row: with `preblur = true` every 2 × 2 block has mean alpha 0, the
synthesized tile is transparent and nothing is written. -/
theorem nontransparent_children_transparent_tile :
    (∀ i j : Int, (i = 0 ∨ i = 1) → (j = 0 ∨ j = 1) →
      child_read plate_four_corner 0 0 0 7 i j = .ok corner_tile) ∧
    is_transparent corner_tile = false ∧
    generate_mipmap_tile plate_four_corner 0 0 0 7 false = .ok [] ∧
    (∀ i j : Int, (i = 0 ∨ i = 1) → (j = 0 ∨ j = 1) →
      child_read plate_four_cancelling 0 0 0 7 i j = .ok cancelling_tile) ∧
    is_transparent cancelling_tile = false ∧
    generate_mipmap_tile plate_four_cancelling 0 0 0 7 true = .ok [] := by
  refine ⟨?_, by decide, ?_, ?_, by decide, ?_⟩
  · intro i j hi hj
    rcases hi with rfl | rfl <;> rcases hj with rfl | rfl <;> rfl
  · have hS : gather_children plate_four_corner 0 0 0 7
        = .ok (crop_assign (crop_assign (crop_assign (crop_assign (ImageView.make 4 4)
            0 0 2 2 corner_tile) 2 0 2 2 corner_tile) 0 2 2 2 corner_tile)
            2 2 2 2 corner_tile) := rfl
    rw [generate_mipmap_tile_of_gather _ _ _ _ _ _ _ hS]
    have ht : is_transparent (downsample (crop_assign (crop_assign (crop_assign (crop_assign
        (ImageView.make 4 4) 0 0 2 2 corner_tile) 2 0 2 2 corner_tile) 0 2 2 2 corner_tile)
        2 2 2 2 corner_tile) false) = true := by decide
    rw [ht]
    rfl
  · intro i j hi hj
    rcases hi with rfl | rfl <;> rcases hj with rfl | rfl <;> rfl
  · have hS : gather_children plate_four_cancelling 0 0 0 7
        = .ok (crop_assign (crop_assign (crop_assign (crop_assign (ImageView.make 4 4)
            0 0 2 2 cancelling_tile) 2 0 2 2 cancelling_tile) 0 2 2 2 cancelling_tile)
            2 2 2 2 cancelling_tile) := rfl
    rw [generate_mipmap_tile_of_gather _ _ _ _ _ _ _ hS]
    have ht : is_transparent (downsample (crop_assign (crop_assign (crop_assign (crop_assign
        (ImageView.make 4 4) 0 0 2 2 cancelling_tile) 2 0 2 2 cancelling_tile)
        0 2 2 2 cancelling_tile) 2 2 2 2 cancelling_tile) true) = true := by
      rw [is_transparent_iff]
      intro x y hx hy
      have hx2 : x < 2 := hx
      have hy2 : y < 2 := hy
      rw [downsample_blur_alpha _ x y (by show 2 * x + 1 < 4; omega)
        (by show 2 * y + 1 < 4; omega)]
      interval_cases x <;> interval_cases y <;>
        norm_num [crop_assign, ImageView.make, cancelling_tile, pixel_zero_a]
    rw [ht]
    rfl

/-- C11 (as amended): for a tile size `T > 0` with `2T < 2^31`, the children
being present or absent.  With `preblur = false` the synthesized tile is
written exactly when it is not transparent, and it is not transparent exactly
when some pixel the decimation keeps, pixel `(2x, 2y)` of the buffer for
`0 ≤ x, y < T`, has non-zero alpha.  With `preblur = true` a non-transparent
tile is written when the four pixels of some block `(2x, 2y)`, `(2x+1, 2y)`,
`(2x, 2y+1)`, `(2x+1, 2y+1)` of the buffer have one and the same non-zero alpha,
and nothing is written when every pixel of the buffer has alpha zero.  Pixel
`(X, Y)` of the buffer is pixel `(X mod T, Y mod T)` of the child in quadrant
`(floor(X/T), floor(Y/T))`, and zero when that child is absent. -/
theorem synthesized_tile_nontransparent (pm : PlateCarreePlateManager) (col row level : Int)
    (tid : Transaction) (hT : 0 < pm.m_platefile.default_tile_size)
    (hfit : 2 * pm.m_platefile.default_tile_size < 2 ^ 31)
    (hpa : children_present_or_absent pm col row level tid = true) :
    ∃ super, gather_children pm col row level tid = .ok super ∧
      generate_mipmap_tile pm col row level tid false
        = .ok (if is_transparent (downsample super false) then []
               else [⟨downsample super false, col, row, level, tid⟩]) ∧
      (is_transparent (downsample super false) = false ↔
        ∃ x y : Nat, (x : Int) < pm.m_platefile.default_tile_size ∧
          (y : Int) < pm.m_platefile.default_tile_size ∧
          (quadrant_pixel pm col row level tid (2 * x) (2 * y)).a ≠ 0) ∧
      ((∃ x y : Nat, (x : Int) < pm.m_platefile.default_tile_size ∧
          (y : Int) < pm.m_platefile.default_tile_size ∧
          (quadrant_pixel pm col row level tid (2 * x) (2 * y)).a ≠ 0 ∧
          (quadrant_pixel pm col row level tid (2 * x + 1) (2 * y)).a
            = (quadrant_pixel pm col row level tid (2 * x) (2 * y)).a ∧
          (quadrant_pixel pm col row level tid (2 * x) (2 * y + 1)).a
            = (quadrant_pixel pm col row level tid (2 * x) (2 * y)).a ∧
          (quadrant_pixel pm col row level tid (2 * x + 1) (2 * y + 1)).a
            = (quadrant_pixel pm col row level tid (2 * x) (2 * y)).a) →
        ∃ tile, is_transparent tile = false ∧
          generate_mipmap_tile pm col row level tid true
            = .ok [⟨tile, col, row, level, tid⟩]) ∧
      ((∀ X Y : Nat, (X : Int) < 2 * pm.m_platefile.default_tile_size →
          (Y : Int) < 2 * pm.m_platefile.default_tile_size →
          (quadrant_pixel pm col row level tid X Y).a = 0) →
        generate_mipmap_tile pm col row level tid true = .ok []) := by
  obtain ⟨super, hs, hc, hr, hd, hp⟩ := gather_children_fit pm col row level tid hT hfit hpa
  have hblur : ∀ x y : Nat, (x : Int) < pm.m_platefile.default_tile_size →
      (y : Int) < pm.m_platefile.default_tile_size →
      ((downsample super true).pix x y).a
        = (quadrant_pixel pm col row level tid (2 * x) (2 * y)).a / 4
          + (quadrant_pixel pm col row level tid (2 * x + 1) (2 * y)).a / 4
          + (quadrant_pixel pm col row level tid (2 * x) (2 * y + 1)).a / 4
          + (quadrant_pixel pm col row level tid (2 * x + 1) (2 * y + 1)).a / 4 := by
    intro x y hx hy
    rw [downsample_blur_alpha super x y (by omega) (by omega),
      hp (2 * x) (2 * y) (by push_cast; omega) (by push_cast; omega),
      hp (2 * x + 1) (2 * y) (by push_cast; omega) (by push_cast; omega),
      hp (2 * x) (2 * y + 1) (by push_cast; omega) (by push_cast; omega),
      hp (2 * x + 1) (2 * y + 1) (by push_cast; omega) (by push_cast; omega)]
  refine ⟨super, hs, generate_mipmap_tile_of_gather pm col row level tid false super hs,
    ?_, ?_, ?_⟩
  · rw [Bool.eq_false_iff, Ne, is_transparent_iff, (hd false).1, (hd false).2]
    constructor
    · intro h
      by_contra hex
      apply h
      intro x y hx hy
      by_contra hne
      apply hex
      refine ⟨x, y, by omega, by omega, ?_⟩
      rw [← hp (2 * x) (2 * y) (by push_cast; omega) (by push_cast; omega)]
      exact hne
    · rintro ⟨x, y, hx, hy, hne⟩ h
      apply hne
      rw [← hp (2 * x) (2 * y) (by push_cast; omega) (by push_cast; omega)]
      exact h x y (by omega) (by omega)
  · rintro ⟨x, y, hx, hy, hne, h10, h01, h11⟩
    have hnt : is_transparent (downsample super true) = false := by
      rw [Bool.eq_false_iff]
      intro ht
      rw [is_transparent_iff] at ht
      have hz := ht x y (by rw [(hd true).1]; omega) (by rw [(hd true).2]; omega)
      rw [hblur x y hx hy, h10, h01, h11] at hz
      apply hne
      linarith
    refine ⟨downsample super true, hnt, ?_⟩
    rw [generate_mipmap_tile_of_gather pm col row level tid true super hs, hnt]
    rfl
  · intro z
    have ht : is_transparent (downsample super true) = true := by
      rw [is_transparent_iff, (hd true).1, (hd true).2]
      intro x y hx hy
      rw [hblur x y (by omega) (by omega), z _ _ (by push_cast; omega) (by push_cast; omega),
        z _ _ (by push_cast; omega) (by push_cast; omega),
        z _ _ (by push_cast; omega) (by push_cast; omega),
        z _ _ (by push_cast; omega) (by push_cast; omega)]
      norm_num
    rw [generate_mipmap_tile_of_gather pm col row level tid true super hs, ht]
    rfl

/-- C11 on four uniform opaque children: the tile is written with the blur
and without it. -/
theorem synthesized_tile_nontransparent_witness :
    0 < plate_four_uniform.m_platefile.default_tile_size ∧
    2 * plate_four_uniform.m_platefile.default_tile_size < 2 ^ 31 ∧
    children_present_or_absent plate_four_uniform 0 0 0 7 = true ∧
    ∃ super, gather_children plate_four_uniform 0 0 0 7 = .ok super ∧
      generate_mipmap_tile plate_four_uniform 0 0 0 7 false
        = .ok [⟨downsample super false, 0, 0, 0, 7⟩] ∧
      ∃ tile, is_transparent tile = false ∧
        generate_mipmap_tile plate_four_uniform 0 0 0 7 true = .ok [⟨tile, 0, 0, 0, 7⟩] := by
  obtain ⟨super, hs, hg, hdec, hblur, -⟩ :=
    synthesized_tile_nontransparent plate_four_uniform 0 0 0 7 (by decide) (by decide)
      (by decide)
  have hf : is_transparent (downsample super false) = false :=
    hdec.mpr ⟨0, 0, by decide, by decide, by decide⟩
  rw [hf] at hg
  exact ⟨by decide, by decide, by decide, super, hs, hg,
    hblur ⟨0, 0, by decide, by decide, by decide, by decide, by decide, by decide⟩⟩

end VW
